import Mathlib

/-!
Verification of the real-time notification/collaboration layer of the
Nyelvszo v2.0 repository: the `EventStore` (event sourcing bridge), the
`WebSocketManager` (connection registry, rooms, subscriptions, protocol
handlers) and the `NotificationService` (delivery tasks, retry, rate
limiting), shallowly embedded from the JavaScript sources.
-/

set_option autoImplicit false

namespace Nyelvszo

/-! ## Association-list helpers

JavaScript `Map` objects (`clients`, `rooms`, `userSessions`,
`messageQueue`, `deliveryQueue`, `rateLimiter`, `userPreferences`) are
modelled as association lists keyed by strings; `Set` objects are modelled
as duplicate-free lists, with `Set.add` as append-if-absent and
`Set.delete` as filtering the element out. -/

def lookupA {α : Type} : List (String × α) → String → Option α
  | [], _ => none
  | (k, v) :: rest, key => if k = key then some v else lookupA rest key

def setA {α : Type} : List (String × α) → String → α → List (String × α)
  | [], key, v => [(key, v)]
  | (k, w) :: rest, key, v =>
    if k = key then (key, v) :: rest else (k, w) :: setA rest key v

def removeA {α : Type} : List (String × α) → String → List (String × α)
  | [], _ => []
  | (k, w) :: rest, key =>
    if k = key then removeA rest key else (k, w) :: removeA rest key

def setAdd (l : List String) (x : String) : List String :=
  if l.contains x then l else l ++ [x]

theorem lookupA_setA {α : Type} (l : List (String × α)) (k c : String) (v : α) :
    lookupA (setA l k v) c = if k = c then some v else lookupA l c := by
  induction l with
  | nil =>
    by_cases h : k = c <;> simp [setA, lookupA, h]
  | cons p rest ih =>
    obtain ⟨pk, pv⟩ := p
    by_cases h1 : pk = k
    · subst h1
      by_cases h2 : pk = c
      · subst h2; simp [setA, lookupA]
      · simp [setA, lookupA, h2]
    · by_cases h2 : pk = c
      · subst h2
        have hkc : ¬ k = pk := fun h => h1 h.symm
        simp [setA, lookupA, h1, hkc]
      · simp [setA, lookupA, h1, h2, ih]

theorem lookupA_removeA {α : Type} (l : List (String × α)) (k c : String) :
    lookupA (removeA l k) c = if k = c then none else lookupA l c := by
  induction l with
  | nil => simp [removeA, lookupA]
  | cons p rest ih =>
    obtain ⟨pk, pv⟩ := p
    by_cases h1 : pk = k
    · subst h1
      by_cases h2 : pk = c
      · subst h2; simp [removeA, lookupA, ih]
      · simp [removeA, lookupA, ih, h2]
    · by_cases h2 : pk = c
      · subst h2
        have hkc : ¬ k = pk := fun h => h1 h.symm
        simp [removeA, lookupA, h1, hkc]
      · simp [removeA, lookupA, h1, h2, ih]

theorem setA_self {α : Type} (l : List (String × α)) (k : String) (v : α)
    (h : lookupA l k = some v) : setA l k v = l := by
  induction l with
  | nil => simp [lookupA] at h
  | cons p rest ih =>
    obtain ⟨pk, pv⟩ := p
    by_cases h1 : pk = k
    · subst h1
      simp [lookupA] at h
      subst h
      simp [setA]
    · simp only [lookupA, if_neg h1] at h
      simp [setA, h1, ih h]

/-! ## Event model

Embeds the MongoDB event documents of `EventStore.js` (streamId,
eventType, aggregateId, aggregateType, eventData, sequenceNumber). The
per-event metadata (timestamps, correlation/causation ids) is generated
from wall-clock time and uuids in the source and is left out of the
model; no claim depends on it. -/

inductive EventData where
  | editOp (operation : String) (dataStr : String) (userId : String)
  | notif (payload : String)
  | raw (s : String)
deriving DecidableEq

structure StoredEvent where
  streamId : String
  eventType : String
  aggregateId : String
  aggregateType : String
  eventData : EventData
  sequenceNumber : Nat
deriving DecidableEq

structure InputEvent where
  eventType : String
  aggregateId : String
  aggregateType : String
  eventData : EventData
deriving DecidableEq

/-- Errors raised by `EventStore.appendToStream`: the dedicated
`ConcurrencyError` class versus any other failure (database errors,
validation errors) that the `catch` block rethrows. -/
inductive ESError where
  | concurrency (msg : String)
  | other (msg : String)
deriving DecidableEq

/-- The event store state: one list of persisted events per stream id,
kept in insertion order (the `eventstore` collection restricted to one
process). -/
def ESState : Type := List (String × List StoredEvent)

instance : DecidableEq ESState := by unfold ESState; infer_instance

def streamOf (st : ESState) (streamId : String) : List StoredEvent :=
  (lookupA st streamId).getD []

/-- Embeds the head-version read of `appendToStream`:
`Event.findOne({streamId}, {}, {sort: {sequenceNumber: -1}})`, i.e. the
maximum sequence number in the stream, `0` when the stream is empty. -/
def maxSeq : List StoredEvent → Nat
  | [] => 0
  | e :: rest => max e.sequenceNumber (maxSeq rest)

def headVersion (st : ESState) (streamId : String) : Nat :=
  maxSeq (streamOf st streamId)

/-- Embeds the `events.map((event, index) => ... sequenceNumber:
currentVersion + index + 1)` preparation step of `appendToStream`. -/
def prepareEvents (streamId : String) : Nat → List InputEvent → List StoredEvent
  | _, [] => []
  | curr, e :: rest =>
    { streamId := streamId, eventType := e.eventType,
      aggregateId := e.aggregateId, aggregateType := e.aggregateType,
      eventData := e.eventData, sequenceNumber := curr + 1 }
      :: prepareEvents streamId (curr + 1) rest

def concurrencyMsg (expectedVersion : Int) (currentVersion : Nat) : String :=
  "Expected version " ++ toString expectedVersion ++
    ", but current version is " ++ toString currentVersion

/-- Embeds `EventStore.appendToStream(streamId, events, expectedVersion,
metadata)`. The session transaction is modelled by returning the original
state on failure (the throw aborts `withTransaction`, so nothing is
persisted); on success the prepared events are inserted in one step
(`insertMany`). Event-emitter notifications (`eventAppended`,
`stream:{id}` listeners) are side effects on subscribers and are not part
of the store state. -/
def appendToStream (st : ESState) (streamId : String) (events : List InputEvent)
    (expectedVersion : Int) : ESState × Except ESError (List StoredEvent) :=
  let evs := streamOf st streamId
  let currentVersion := maxSeq evs
  if expectedVersion ≠ -1 ∧ (currentVersion : Int) ≠ expectedVersion then
    (st, Except.error (ESError.concurrency (concurrencyMsg expectedVersion currentVersion)))
  else
    let inserted := prepareEvents streamId currentVersion events
    (setA st streamId (evs ++ inserted), Except.ok inserted)

def inSeqRange (fromVersion toVersion : Nat) (e : StoredEvent) : Bool :=
  decide (fromVersion ≤ e.sequenceNumber) && decide (e.sequenceNumber ≤ toVersion)

/-- Insertion step of the sequence-number sort used by
`readStreamEvents` (`.sort({sequenceNumber: 1})`). -/
def insertBySeq (e : StoredEvent) : List StoredEvent → List StoredEvent
  | [] => [e]
  | x :: xs =>
    if e.sequenceNumber ≤ x.sequenceNumber then e :: x :: xs
    else x :: insertBySeq e xs

def sortBySeq : List StoredEvent → List StoredEvent
  | [] => []
  | x :: xs => insertBySeq x (sortBySeq xs)

/-- Embeds `EventStore.readStreamEvents(streamId, fromVersion,
toVersion)`: the events of the stream whose sequence number lies in
`[fromVersion, toVersion]`, sorted by ascending sequence number. -/
def readStreamEvents (st : ESState) (streamId : String)
    (fromVersion toVersion : Nat) : List StoredEvent :=
  sortBySeq ((streamOf st streamId).filter (inSeqRange fromVersion toVersion))

/-! ## Stream invariants and reachability -/

/-- The sequence numbers of the list are exactly `n+1, n+2, ...` in
order. -/
def seqsFrom : Nat → List StoredEvent → Bool
  | _, [] => true
  | n, e :: rest => (e.sequenceNumber == n + 1) && seqsFrom (n + 1) rest

/-- `seqRange s n = [s+1, s+2, ..., s+n]`. -/
def seqRange : Nat → Nat → List Nat
  | _, 0 => []
  | s, n + 1 => (s + 1) :: seqRange (s + 1) n

/-- Adjacent sequence numbers increase by exactly one: strictly
increasing with no gaps. -/
def contiguousB : List StoredEvent → Bool
  | [] => true
  | [_] => true
  | e :: f :: rest =>
    (f.sequenceNumber == e.sequenceNumber + 1) && contiguousB (f :: rest)

/-- Adjacent sequence numbers are non-decreasing. -/
def sortedB : List StoredEvent → Bool
  | [] => true
  | [_] => true
  | e :: f :: rest =>
    decide (e.sequenceNumber ≤ f.sequenceNumber) && sortedB (f :: rest)

/-- Event-store states reachable from the empty store by `appendToStream`
calls (failed calls leave the state unchanged). -/
inductive Reachable : ESState → Prop where
  | init : Reachable []
  | append (st : ESState) (sid : String) (events : List InputEvent) (ev : Int)
      (h : Reachable st) : Reachable (appendToStream st sid events ev).1

theorem prepareEvents_map_seq (sid : String) (events : List InputEvent) :
    ∀ curr, (prepareEvents sid curr events).map (fun e => e.sequenceNumber) =
      seqRange curr events.length := by
  induction events with
  | nil => intro curr; simp [prepareEvents, seqRange]
  | cons e rest ih => intro curr; simp [prepareEvents, seqRange, ih]

theorem prepareEvents_seqsFrom (sid : String) (events : List InputEvent) :
    ∀ curr, seqsFrom curr (prepareEvents sid curr events) = true := by
  induction events with
  | nil => intro curr; simp [prepareEvents, seqsFrom]
  | cons e rest ih => intro curr; simp [prepareEvents, seqsFrom, ih]

theorem seqsFrom_append (l1 l2 : List StoredEvent) :
    ∀ n, seqsFrom n (l1 ++ l2) = (seqsFrom n l1 && seqsFrom (n + l1.length) l2) := by
  induction l1 with
  | nil => intro n; simp [seqsFrom]
  | cons e rest ih =>
    intro n
    have harith : n + 1 + rest.length = n + (rest.length + 1) := by omega
    show (e.sequenceNumber == n + 1 && seqsFrom (n + 1) (rest ++ l2)) =
      ((e.sequenceNumber == n + 1 && seqsFrom (n + 1) rest) &&
        seqsFrom (n + (rest.length + 1)) l2)
    rw [ih (n + 1), harith, Bool.and_assoc]

theorem maxSeq_of_seqsFrom (l : List StoredEvent) :
    ∀ n, l ≠ [] → seqsFrom n l = true → maxSeq l = n + l.length := by
  induction l with
  | nil => intro n hne _; exact absurd rfl hne
  | cons e rest ih =>
    intro n _ h
    simp only [seqsFrom, Bool.and_eq_true, beq_iff_eq] at h
    obtain ⟨h1, h2⟩ := h
    cases rest with
    | nil => simp [maxSeq, h1]
    | cons f rest2 =>
      have hr := ih (n + 1) (by simp) h2
      simp only [maxSeq, List.length_cons] at hr ⊢
      omega

theorem maxSeq_eq_length (l : List StoredEvent) (h : seqsFrom 0 l = true) :
    maxSeq l = l.length := by
  cases hl : l with
  | nil => rfl
  | cons e rest =>
    subst hl
    simpa using maxSeq_of_seqsFrom (e :: rest) 0 (by simp) h

theorem streamOf_setA (st : ESState) (k sid : String) (v : List StoredEvent) :
    streamOf (setA st k v) sid = if k = sid then v else streamOf st sid := by
  unfold streamOf
  rw [lookupA_setA]
  by_cases h : k = sid
  · simp [h]
  · simp [h]

theorem appendToStream_fst_error (st : ESState) (sid : String)
    (events : List InputEvent) (ev : Int)
    (hc : ev ≠ -1 ∧ ((maxSeq (streamOf st sid) : Int) ≠ ev)) :
    (appendToStream st sid events ev).1 = st := by
  unfold appendToStream
  rw [if_pos hc]

theorem appendToStream_fst_ok (st : ESState) (sid : String)
    (events : List InputEvent) (ev : Int)
    (hc : ¬ (ev ≠ -1 ∧ ((maxSeq (streamOf st sid) : Int) ≠ ev))) :
    (appendToStream st sid events ev).1 =
      setA st sid (streamOf st sid ++
        prepareEvents sid (maxSeq (streamOf st sid)) events) := by
  unfold appendToStream
  rw [if_neg hc]

theorem reachable_seqsFrom (st : ESState) (h : Reachable st) :
    ∀ sid, seqsFrom 0 (streamOf st sid) = true := by
  induction h with
  | init => intro sid; simp [streamOf, lookupA, seqsFrom]
  | append st0 sid0 events ev _ ih =>
    intro sid
    by_cases hc : ev ≠ -1 ∧ ((maxSeq (streamOf st0 sid0) : Int) ≠ ev)
    · rw [appendToStream_fst_error st0 sid0 events ev hc]
      exact ih sid
    · rw [appendToStream_fst_ok st0 sid0 events ev hc, streamOf_setA]
      by_cases hs : sid0 = sid
      · subst hs
        rw [if_pos rfl, seqsFrom_append]
        have h0 := ih sid0
        rw [maxSeq_eq_length _ h0, h0]
        simp [prepareEvents_seqsFrom]
      · rw [if_neg hs]
        exact ih sid

/-! ## Sorting and filtering lemmas for `readStreamEvents` -/

theorem sortedB_of_contiguousB (l : List StoredEvent) :
    contiguousB l = true → sortedB l = true := by
  induction l with
  | nil => intro _; rfl
  | cons e rest ih =>
    intro h
    cases rest with
    | nil => rfl
    | cons f rest2 =>
      simp only [contiguousB, Bool.and_eq_true, beq_iff_eq] at h
      simp only [sortedB, Bool.and_eq_true, decide_eq_true_eq]
      exact ⟨by omega, ih h.2⟩

theorem sortBySeq_id_of_sortedB (l : List StoredEvent) :
    sortedB l = true → sortBySeq l = l := by
  induction l with
  | nil => intro _; rfl
  | cons e rest ih =>
    intro h
    have hrest : sortedB rest = true := by
      cases rest with
      | nil => rfl
      | cons f rest2 =>
        simp only [sortedB, Bool.and_eq_true] at h
        exact h.2
    simp only [sortBySeq, ih hrest]
    cases rest with
    | nil => rfl
    | cons f rest2 =>
      simp only [sortedB, Bool.and_eq_true, decide_eq_true_eq] at h
      simp [insertBySeq, h.1]

theorem filter_empty_of_seqsFrom (a b : Nat) (l : List StoredEvent) :
    ∀ n, seqsFrom n l = true → b ≤ n → l.filter (inSeqRange a b) = [] := by
  induction l with
  | nil => intro n _ _; rfl
  | cons e rest ih =>
    intro n h hb
    simp only [seqsFrom, Bool.and_eq_true, beq_iff_eq] at h
    obtain ⟨h1, h2⟩ := h
    have hne : inSeqRange a b e = false := by
      simp only [inSeqRange, Bool.and_eq_false_iff, decide_eq_false_iff_not]
      right; omega
    have hstep : (e :: rest).filter (inSeqRange a b) = rest.filter (inSeqRange a b) := by
      simp [List.filter_cons, hne]
    rw [hstep]
    exact ih (n + 1) h2 (by omega)

theorem contiguousB_filter (a b : Nat) (l : List StoredEvent) :
    ∀ n, seqsFrom n l = true → contiguousB (l.filter (inSeqRange a b)) = true := by
  induction l with
  | nil => intro n _; rfl
  | cons e rest ih =>
    intro n h
    simp only [seqsFrom, Bool.and_eq_true, beq_iff_eq] at h
    obtain ⟨h1, h2⟩ := h
    by_cases hke : inSeqRange a b e = true
    · simp only [List.filter_cons, hke, if_pos]
      cases hr : rest with
      | nil => rfl
      | cons f rest2 =>
        subst hr
        simp only [seqsFrom, Bool.and_eq_true, beq_iff_eq] at h2
        obtain ⟨hf1, hf2⟩ := h2
        by_cases hkf : inSeqRange a b f = true
        · have hrec := ih (n + 1) (by simp [seqsFrom, hf1, hf2])
          simp only [List.filter_cons, hkf, if_pos] at hrec ⊢
          simp only [contiguousB, Bool.and_eq_true, beq_iff_eq]
          exact ⟨by omega, hrec⟩
        · have hb2 : b ≤ n + 1 := by
            simp only [inSeqRange, Bool.and_eq_true, decide_eq_true_eq, not_and] at hke hkf
            omega
          have : rest2.filter (inSeqRange a b) = [] :=
            filter_empty_of_seqsFrom a b rest2 (n + 2) hf2 (by omega)
          simp only [List.filter_cons, hkf]
          simp only [Bool.false_eq_true, if_neg (fun hcc => hkf hcc)]
          rw [this]
          rfl
    · simp only [List.filter_cons]
      rw [if_neg (fun hcc => hke hcc)]
      exact ih (n + 1) h2


/-! ## Claim C1 and C2 theorems -/

/-- C1: `EventStore.appendToStream` with a non-sentinel `expectedVersion`
(`≠ -1`) that differs from the stream's current head sequence number
fails with a `ConcurrencyError` — an error constructor distinct from
other failures — and atomically: the store state is returned unchanged,
so no event of the batch is persisted and the head is unchanged; with the
sentinel `expectedVersion = -1` no version check is performed and the
append succeeds regardless of the current head. -/
theorem eventstore_append_optimistic_concurrency :
    (∀ (st : ESState) (sid : String) (events : List InputEvent) (ev : Int),
        ev ≠ -1 → ev ≠ (headVersion st sid : Int) →
        appendToStream st sid events ev =
          (st, Except.error (ESError.concurrency (concurrencyMsg ev (headVersion st sid))))) ∧
    (∀ (st : ESState) (sid : String) (events : List InputEvent),
        appendToStream st sid events (-1) =
          (setA st sid (streamOf st sid ++ prepareEvents sid (headVersion st sid) events),
            Except.ok (prepareEvents sid (headVersion st sid) events))) ∧
    (∀ m1 m2 : String, ESError.concurrency m1 ≠ ESError.other m2) := by
  refine ⟨?_, ?_, ?_⟩
  · intro st sid events ev h1 h2
    have hc : ev ≠ -1 ∧ ((maxSeq (streamOf st sid) : Int) ≠ ev) :=
      ⟨h1, fun h => h2 h.symm⟩
    unfold appendToStream
    rw [if_pos hc]
    rfl
  · intro st sid events
    unfold appendToStream
    rw [if_neg (by intro hc; exact hc.1 rfl)]
    rfl
  · intro m1 m2 h
    exact ESError.noConfusion h

/-- Witness for C1 at a concrete input: a mismatching expected version 5
against an empty stream fails with the concurrency error and leaves the
store unchanged, while the sentinel succeeds. -/
theorem eventstore_append_optimistic_concurrency_witness :
    appendToStream [] ("s") [] 5 =
      ([], Except.error (ESError.concurrency (concurrencyMsg 5 0))) :=
  eventstore_append_optimistic_concurrency.1 [] ("s") [] 5
    (by decide) (by decide)

/-- C2: a successful `appendToStream` of `n` events assigns them the
contiguous sequence numbers `currentHead+1 .. currentHead+n`, and on
every reachable store state `readStreamEvents(streamId, fromVersion,
toVersion)` returns exactly the persisted events of the stream whose
sequence numbers lie in `[fromVersion, toVersion]`, in strictly
increasing sequence-number order with no gaps (adjacent results differ by
exactly one). -/
theorem eventstore_contiguous_append_ordered_read :
    (∀ (st : ESState) (sid : String) (events : List InputEvent) (ev : Int)
        (out : List StoredEvent),
        (appendToStream st sid events ev).2 = Except.ok out →
        out.map (fun e => e.sequenceNumber) = seqRange (headVersion st sid) events.length) ∧
    (∀ (st : ESState), Reachable st → ∀ (sid : String) (a b : Nat),
        readStreamEvents st sid a b = (streamOf st sid).filter (inSeqRange a b) ∧
        contiguousB (readStreamEvents st sid a b) = true) := by
  constructor
  · intro st sid events ev out h
    unfold appendToStream at h
    by_cases hc : ev ≠ -1 ∧ ((maxSeq (streamOf st sid) : Int) ≠ ev)
    · rw [if_pos hc] at h
      simp at h
    · rw [if_neg hc] at h
      simp only [Except.ok.injEq] at h
      rw [← h]
      unfold headVersion
      exact prepareEvents_map_seq sid events (maxSeq (streamOf st sid))
  · intro st hreach sid a b
    have hsf : seqsFrom 0 (streamOf st sid) = true := reachable_seqsFrom st hreach sid
    have hcf : contiguousB ((streamOf st sid).filter (inSeqRange a b)) = true :=
      contiguousB_filter a b (streamOf st sid) 0 hsf
    have hid : readStreamEvents st sid a b = (streamOf st sid).filter (inSeqRange a b) := by
      unfold readStreamEvents
      exact sortBySeq_id_of_sortedB _ (sortedB_of_contiguousB _ hcf)
    exact ⟨hid, by rw [hid]; exact hcf⟩

def exInput : InputEvent :=
  { eventType := "EntryEditOperation", aggregateId := "42",
    aggregateType := "Entry", eventData := EventData.raw ("x") }

def exState1 : ESState := (appendToStream [] ("s") [exInput, exInput] (-1)).1

/-- Witness for C2 at concrete inputs: appending two events to the empty
stream assigns sequence numbers 1 and 2, and reading the resulting
reachable state back gives exactly the in-range events, contiguously. -/
theorem eventstore_contiguous_append_ordered_read_witness :
    ((appendToStream [] ("s") [exInput, exInput] (-1)).2 =
        Except.ok (prepareEvents ("s") 0 [exInput, exInput]) →
      (prepareEvents ("s") 0 [exInput, exInput]).map (fun e => e.sequenceNumber) =
        seqRange (headVersion [] ("s")) 2) ∧
    (readStreamEvents exState1 ("s") 1 2 =
        (streamOf exState1 ("s")).filter (inSeqRange 1 2) ∧
      contiguousB (readStreamEvents exState1 ("s") 1 2) = true) :=
  ⟨fun h => eventstore_contiguous_append_ordered_read.1 [] ("s")
      [exInput, exInput] (-1) (prepareEvents ("s") 0 [exInput, exInput]) h,
    eventstore_contiguous_append_ordered_read.2 exState1
      (Reachable.append [] ("s") [exInput, exInput] (-1) Reachable.init) ("s") 1 2⟩

/-! ## WebSocketManager embedding

Embeds `websocketManager.js`: the clients registry, rooms, user-session
index and per-client message queue, plus the protocol handlers. Outbound
transport writes are collected as a list of `(clientId, frame)` pairs;
frames that could not be written are pushed onto the per-client
`messageQueue` exactly as in `sendToClient`. -/

inductive Payload where
  | connectionWelcome (clientId : String)
  | authSuccess (userId : String) (role : Int)
  | subscribed (channels : List String)
  | unsubscribed (channels : List String)
  | searchResults (query : String) (results : List String)
  | userTyping (userId : String) (isTyping : Bool)
  | chatMessage (roomId : String) (message : String) (userId : String)
  | entryUpdated (entryId : String) (operation : String) (dataStr : String) (userId : String)
  | roomJoined (roomId : String) (memberCount : Nat)
  | roomLeft (roomId : String) (memberCount : Nat)
  | userJoined (roomId : String) (userId : Option String)
  | userLeft (roomId : String) (userId : Option String)
  | heartbeatAck
  | error (code : String) (message : String)
deriving DecidableEq

structure Frame where
  type : String
  payload : Payload
deriving DecidableEq

/-- One entry of the `clients` map: the per-connection record created in
`handleConnection`. `wsOpen` models `ws.readyState === WebSocket.OPEN`;
`sendOk` models whether `ws.send` succeeds (the `try`/`catch` around it);
`userId`, `email` and `role` are null until `handleAuth` binds them. -/
structure Client where
  clientId : String
  wsOpen : Bool
  sendOk : Bool
  userId : Option String
  email : Option String
  role : Option Int
  subscriptions : List String
  lastHeartbeat : Nat
deriving DecidableEq

structure WSState where
  clients : List (String × Client)
  rooms : List (String × List String)
  userSessions : List (String × List String)
  messageQueue : List (String × List Frame)
  eventStore : ESState
deriving DecidableEq

def emptyWS : WSState :=
  { clients := [], rooms := [], userSessions := [], messageQueue := [], eventStore := [] }

def queueOf (s : WSState) (clientId : String) : List Frame :=
  (lookupA s.messageQueue clientId).getD []

/-- `messageQueue.get(clientId).push(message)`, creating the queue on
first use. -/
def enqueueMsg (q : List (String × List Frame)) (clientId : String) (f : Frame) :
    List (String × List Frame) :=
  match lookupA q clientId with
  | some msgs => setA q clientId (msgs ++ [f])
  | none => setA q clientId [f]

/-- Embeds `WebSocketManager.sendToClient(clientId, message)`: returns
the written frames, the boolean result, and the new state. A missing or
non-open connection queues the frame and returns `false`; an open
connection whose `ws.send` throws returns `false` without queuing. -/
def sendToClient (s : WSState) (clientId : String) (message : Frame) :
    WSState × List (String × Frame) × Bool :=
  match lookupA s.clients clientId with
  | some client =>
    if client.wsOpen then
      if client.sendOk then (s, [(clientId, message)], true)
      else (s, [], false)
    else ({ s with messageQueue := enqueueMsg s.messageQueue clientId message }, [], false)
  | none => ({ s with messageQueue := enqueueMsg s.messageQueue clientId message }, [], false)

/-- `sendToClient` over a member list with an exclusion set: the body of
`broadcastToRoom` (and of the room sweep in `handleDisconnection`). -/
def sendAllList (s : WSState) (targets : List String) (f : Frame) (exclude : List String) :
    WSState × List (String × Frame) × Nat :=
  match targets with
  | [] => (s, [], 0)
  | cid :: rest =>
    if exclude.contains cid then sendAllList s rest f exclude
    else
      let r := sendToClient s cid f
      let acc := sendAllList r.1 rest f exclude
      (acc.1, r.2.1 ++ acc.2.1, (if r.2.2 then 1 else 0) + acc.2.2)

/-- Embeds `WebSocketManager.broadcastToRoom(roomId, message, exclude)`. -/
def broadcastToRoom (s : WSState) (roomId : String) (f : Frame) (exclude : List String) :
    WSState × List (String × Frame) × Nat :=
  match lookupA s.rooms roomId with
  | none => (s, [], 0)
  | some members => sendAllList s members f exclude

/-- Iteration of `broadcastToSubscribers` over the clients map. -/
def bSubs (s : WSState) (cs : List (String × Client)) (channel : String) (f : Frame)
    (exclude : List String) : WSState × List (String × Frame) × Nat :=
  match cs with
  | [] => (s, [], 0)
  | (cid, c) :: rest =>
    if exclude.contains cid then bSubs s rest channel f exclude
    else if c.subscriptions.contains channel then
      let r := sendToClient s cid f
      let acc := bSubs r.1 rest channel f exclude
      (acc.1, r.2.1 ++ acc.2.1, (if r.2.2 then 1 else 0) + acc.2.2)
    else bSubs s rest channel f exclude

/-- Embeds `WebSocketManager.broadcastToSubscribers(channel, message,
exclude)`: sends to every client whose subscription set has the channel,
excluding the given ids. -/
def broadcastToSubscribers (s : WSState) (channel : String) (f : Frame)
    (exclude : List String) : WSState × List (String × Frame) × Nat :=
  bSubs s s.clients channel f exclude

/-- Embeds `WebSocketManager.sendError(clientId, code, message)`. -/
def sendError (s : WSState) (clientId code msg : String) : WSState × List (String × Frame) :=
  let r := sendToClient s clientId ⟨"error", Payload.error code msg⟩
  (r.1, r.2.1)

/-- `role >= k` in JavaScript, where `role` is `undefined` until
authentication (`undefined >= k` is false). -/
def roleGE (role : Option Int) (k : Int) : Bool :=
  match role with
  | some v => decide (k ≤ v)
  | none => false

/-- Embeds `WebSocketManager.getAllowedChannels(role)`. -/
def getAllowedChannels (role : Option Int) : List String :=
  let base := [("entries:public"), ("search:suggestions")]
  let base2 := if roleGE role 2 then base ++ [("entries:editing"), ("collaboration:*")] else base
  if roleGE role 3 then base2 ++ [("admin:*"), ("system:*")] else base2

/-- Embeds `WebSocketManager.handleConnection`: registers the client
record and sends the welcome frame. -/
def handleConnection (s : WSState) (clientId : String) (wsOpen sendOk : Bool) :
    WSState × List (String × Frame) :=
  let c : Client :=
    { clientId := clientId, wsOpen := wsOpen, sendOk := sendOk, userId := none,
      email := none, role := none, subscriptions := [], lastHeartbeat := 0 }
  let s1 := { s with clients := setA s.clients clientId c }
  let r := sendToClient s1 clientId ⟨"connection", Payload.connectionWelcome clientId⟩
  (r.1, r.2.1)

/-- Outcome of `jwt.verify` on the auth payload: missing token, a token
that fails verification, or a valid token carrying userId/email/role. -/
inductive AuthToken where
  | missing
  | invalid
  | valid (userId : String) (email : String) (role : Int)
deriving DecidableEq

/-- Embeds `WebSocketManager.handleAuth(clientId, payload)`. -/
def handleAuth (s : WSState) (clientId : String) (tok : AuthToken) :
    WSState × List (String × Frame) :=
  match tok with
  | AuthToken.missing =>
    sendError s clientId ("AUTH_TOKEN_REQUIRED") ("Authentication token is required")
  | AuthToken.invalid =>
    sendError s clientId ("AUTH_FAILED") ("Invalid authentication token")
  | AuthToken.valid uid email role =>
    match lookupA s.clients clientId with
    | none => (s, [])
    | some client =>
      let client1 := { client with userId := some uid, email := some email, role := some role }
      let sessions := (lookupA s.userSessions uid).getD []
      let s1 := { s with clients := setA s.clients clientId client1,
                         userSessions := setA s.userSessions uid (setAdd sessions clientId) }
      let r := sendToClient s1 clientId ⟨"auth_success", Payload.authSuccess uid role⟩
      (r.1, r.2.1)

/-- The subscription loop of `handleSubscribe`: adds each allowed channel
to the subscription set and collects the granted names in request
order. -/
def subLoop (subs allowed : List String) : List String → List String × List String
  | [] => (subs, [])
  | c :: rest =>
    if allowed.contains c then
      let r := subLoop (setAdd subs c) allowed rest
      (r.1, c :: r.2)
    else subLoop subs allowed rest

/-- Embeds `WebSocketManager.handleSubscribe(clientId, payload)`: a
non-array `channels` payload is an error; otherwise requested names are
filtered against the role-derived allowed set, disallowed names are
silently dropped, and a `subscribed` frame carries the granted list.
(The `eventStore.subscribeToStream` call for `entries:`-prefixed granted
channels registers an emitter listener and is not part of this state.) -/
def handleSubscribe (s : WSState) (clientId : String) (payloadChannels : Option (List String)) :
    WSState × List (String × Frame) :=
  match payloadChannels with
  | none => sendError s clientId ("INVALID_CHANNELS") ("Channels must be an array")
  | some channels =>
    match lookupA s.clients clientId with
    | none => (s, [])
    | some client =>
      let allowed := getAllowedChannels client.role
      let r := subLoop client.subscriptions allowed channels
      let s1 := { s with clients := setA s.clients clientId { client with subscriptions := r.1 } }
      let r2 := sendToClient s1 clientId ⟨"subscribed", Payload.subscribed r.2⟩
      (r2.1, r2.2.1)

/-- The removal loop of `handleUnsubscribe`. -/
def unsubLoop (subs : List String) : List String → List String × List String
  | [] => (subs, [])
  | c :: rest =>
    if subs.contains c then
      let r := unsubLoop (subs.filter (fun x => x ≠ c)) rest
      (r.1, c :: r.2)
    else unsubLoop subs rest

/-- Embeds `WebSocketManager.handleUnsubscribe(clientId, payload)`. -/
def handleUnsubscribe (s : WSState) (clientId : String) (payloadChannels : Option (List String)) :
    WSState × List (String × Frame) :=
  match payloadChannels with
  | none => sendError s clientId ("INVALID_CHANNELS") ("Channels must be an array")
  | some channels =>
    match lookupA s.clients clientId with
    | none => (s, [])
    | some client =>
      let r := unsubLoop client.subscriptions channels
      let s1 := { s with clients := setA s.clients clientId { client with subscriptions := r.1 } }
      let r2 := sendToClient s1 clientId ⟨"unsubscribed", Payload.unsubscribed r.2⟩
      (r2.1, r2.2.1)

/-- Embeds `WebSocketManager.handleRealTimeSearch(clientId, payload)`:
short queries get an empty result frame, otherwise the external search
collaborator's results (a parameter here) are truncated to ten and
replied. -/
def handleRealTimeSearch (s : WSState) (clientId query : String) (results : List String) :
    WSState × List (String × Frame) :=
  if query.length < 2 then
    let r := sendToClient s clientId ⟨"search_results", Payload.searchResults query []⟩
    (r.1, r.2.1)
  else
    let r := sendToClient s clientId ⟨"search_results", Payload.searchResults query (results.take 10)⟩
    (r.1, r.2.1)

/-- Embeds `WebSocketManager.handleTyping(clientId, payload)`: an unknown
or unauthenticated client is ignored silently; otherwise the typing
status is broadcast to the room excluding the sender. -/
def handleTyping (s : WSState) (clientId room : String) (isTyping : Bool) :
    WSState × List (String × Frame) :=
  match lookupA s.clients clientId with
  | none => (s, [])
  | some client =>
    match client.userId with
    | none => (s, [])
    | some uid =>
      let r := broadcastToRoom s room ⟨"user_typing", Payload.userTyping uid isTyping⟩ [clientId]
      (r.1, r.2.1)

/-- Embeds `WebSocketManager.handleHeartbeat(clientId, payload)`. -/
def handleHeartbeat (s : WSState) (clientId : String) (now : Nat) :
    WSState × List (String × Frame) :=
  match lookupA s.clients clientId with
  | none => (s, [])
  | some client =>
    let s1 := { s with clients := setA s.clients clientId { client with lastHeartbeat := now } }
    let r := sendToClient s1 clientId ⟨"heartbeat_ack", Payload.heartbeatAck⟩
    (r.1, r.2.1)

/-- Embeds `WebSocketManager.handleJoinRoom(clientId, payload)`: lazily
creates the room, adds the client, acknowledges with `room_joined` and
notifies the other members with `user_joined`. -/
def handleJoinRoom (s : WSState) (clientId roomId : String) :
    WSState × List (String × Frame) :=
  let members0 := (lookupA s.rooms roomId).getD []
  let members := setAdd members0 clientId
  let s1 := { s with rooms := setA s.rooms roomId members }
  let client := lookupA s1.clients clientId
  let r1 := sendToClient s1 clientId ⟨"room_joined", Payload.roomJoined roomId members.length⟩
  let r2 := broadcastToRoom r1.1 roomId
    ⟨"user_joined", Payload.userJoined roomId (client.bind fun c => c.userId)⟩ [clientId]
  (r2.1, r1.2.1 ++ r2.2.1)

/-- The room mutation of `handleLeaveRoom`: delete the client from the
room's member set and delete the room when it becomes empty. -/
def leaveRoomState (s : WSState) (clientId roomId : String) : WSState :=
  match lookupA s.rooms roomId with
  | some ms =>
    if ms.contains clientId then
      if (ms.filter (fun m => m ≠ clientId)).isEmpty then
        { s with rooms := removeA s.rooms roomId }
      else { s with rooms := setA s.rooms roomId (ms.filter (fun m => m ≠ clientId)) }
    else s
  | none => s

/-- Embeds `WebSocketManager.handleLeaveRoom(clientId, payload)`: removes
the client from the room (deleting the room when it becomes empty),
acknowledges with `room_left`, and notifies remaining members with
`user_left` when the room is non-empty. -/
def handleLeaveRoom (s : WSState) (clientId roomId : String) :
    WSState × List (String × Frame) :=
  let roomOpt := lookupA s.rooms roomId
  let roomAfter := roomOpt.map
    (fun ms => if ms.contains clientId then ms.filter (fun m => m ≠ clientId) else ms)
  let s1 := leaveRoomState s clientId roomId
  let client := lookupA s1.clients clientId
  let cnt := (roomAfter.getD []).length
  let r1 := sendToClient s1 clientId ⟨"room_left", Payload.roomLeft roomId cnt⟩
  if roomOpt.isSome ∧ 0 < cnt then
    let r2 := broadcastToRoom r1.1 roomId
      ⟨"user_left", Payload.userLeft roomId (client.bind fun c => c.userId)⟩ []
    (r2.1, r1.2.1 ++ r2.2.1)
  else (r1.1, r1.2.1)

/-- Embeds `WebSocketManager.handleChatMessage(clientId, payload)`: an
unknown or unauthenticated sender gets an `UNAUTHORIZED` error frame;
otherwise the message is broadcast to the room excluding the sender. -/
def handleChatMessage (s : WSState) (clientId roomId msg : String) :
    WSState × List (String × Frame) :=
  match lookupA s.clients clientId with
  | none => sendError s clientId ("UNAUTHORIZED") ("Authentication required")
  | some client =>
    match client.userId with
    | none => sendError s clientId ("UNAUTHORIZED") ("Authentication required")
    | some uid =>
      let r := broadcastToRoom s roomId
        ⟨"chat_message", Payload.chatMessage roomId msg uid⟩ [clientId]
      (r.1, r.2.1)

/-- Embeds `WebSocketManager.handleEntryEdit(clientId, payload)`:
authentication and Editor-role checks, then an append to stream
`entry-{entryId}` with the no-check sentinel `-1`, then a broadcast of
`entry_updated` to the subscribers of channel `entries:{entryId}`
excluding the sender. -/
def handleEntryEdit (s : WSState) (clientId entryId operation dataStr : String) :
    WSState × List (String × Frame) :=
  match lookupA s.clients clientId with
  | none => sendError s clientId ("UNAUTHORIZED") ("Authentication required")
  | some client =>
    match client.userId with
    | none => sendError s clientId ("UNAUTHORIZED") ("Authentication required")
    | some uid =>
      if roleGE client.role 2 then
        let editEvent : InputEvent :=
          { eventType := "EntryEditOperation", aggregateId := entryId,
            aggregateType := "Entry", eventData := EventData.editOp operation dataStr uid }
        let r := appendToStream s.eventStore ("entry-" ++ entryId) [editEvent] (-1)
        match r.2 with
        | Except.error _ => sendError s clientId ("EDIT_FAILED") ("Failed to process entry edit")
        | Except.ok _ =>
          let s1 := { s with eventStore := r.1 }
          let b := broadcastToSubscribers s1 ("entries:" ++ entryId)
            ⟨"entry_updated", Payload.entryUpdated entryId operation dataStr uid⟩ [clientId]
          (b.1, b.2.1)
      else sendError s clientId ("INSUFFICIENT_PERMISSIONS") ("Editor role required")

/-- The room sweep of `handleDisconnection`: for each room containing the
client, delete it, broadcast `user_left` to the remaining members, and
drop the room when it becomes empty. Returns the new send state, the new
rooms map, and the written frames. -/
def sweepRooms (s : WSState) (clientId : String) (client : Client) :
    List (String × List String) → WSState × List (String × List String) × List (String × Frame)
  | [] => (s, [], [])
  | (roomId, members) :: rest =>
    if members.contains clientId then
      let members1 := members.filter (fun m => m ≠ clientId)
      let r := sendAllList s members1 ⟨"user_left", Payload.userLeft roomId client.userId⟩ []
      let acc := sweepRooms r.1 clientId client rest
      if members1.isEmpty then (acc.1, acc.2.1, r.2.1 ++ acc.2.2)
      else (acc.1, (roomId, members1) :: acc.2.1, r.2.1 ++ acc.2.2)
    else
      let acc := sweepRooms s clientId client rest
      (acc.1, (roomId, members) :: acc.2.1, acc.2.2)

/-- The user-session-index mutation of `handleDisconnection`: remove the
client id from its bound user's set, deleting the user's entry when the
set becomes empty. -/
def disconnectSessions (s : WSState) (clientId : String) (client : Client) :
    List (String × List String) :=
  match client.userId with
  | some uid =>
    match lookupA s.userSessions uid with
    | some set =>
      if (set.filter (fun x => x ≠ clientId)).isEmpty then removeA s.userSessions uid
      else setA s.userSessions uid (set.filter (fun x => x ≠ clientId))
    | none => s.userSessions
  | none => s.userSessions

/-- Embeds `WebSocketManager.handleDisconnection(clientId, code,
reason)`: removes the client from the user-session index (dropping the
user's entry when its last connection leaves), sweeps it out of every
room (deleting rooms left empty, notifying remaining members), and
deletes the client record. The message queue is not touched. -/
def handleDisconnection (s : WSState) (clientId : String) :
    WSState × List (String × Frame) :=
  match lookupA s.clients clientId with
  | some client =>
    let s1 := { s with userSessions := disconnectSessions s clientId client }
    let r := sweepRooms s1 clientId client s1.rooms
    ({ r.1 with rooms := r.2.1, clients := removeA r.1.clients clientId }, r.2.2)
  | none => ({ s with clients := removeA s.clients clientId }, [])

structure Stats where
  totalConnections : Nat
  authenticatedUsers : Nat
  activeRooms : Nat
  queuedMessages : Nat
deriving DecidableEq

/-- Embeds `WebSocketManager.getStats()` (minus process uptime). -/
def getStats (s : WSState) : Stats :=
  { totalConnections := s.clients.length,
    authenticatedUsers := s.userSessions.length,
    activeRooms := s.rooms.length,
    queuedMessages := (s.messageQueue.map (fun p => p.2.length)).foldl (fun a b => a + b) 0 }

/-! ## Message-queue accounting -/

/-- `b` extends `a` at the end: old queue entries survive in place. -/
def qext (a b : List Frame) : Prop := ∃ t, b = a ++ t

theorem qext_refl (a : List Frame) : qext a a := ⟨[], by simp⟩

theorem qext_trans {a b c : List Frame} (h1 : qext a b) (h2 : qext b c) : qext a c := by
  obtain ⟨t1, e1⟩ := h1
  obtain ⟨t2, e2⟩ := h2
  exact ⟨t1 ++ t2, by rw [e2, e1, List.append_assoc]⟩

theorem qext_len {a b : List Frame} (h : qext a b) : a.length ≤ b.length := by
  obtain ⟨t, e⟩ := h
  simp [e]

theorem lookupA_enqueueMsg (q : List (String × List Frame)) (k c : String) (f : Frame) :
    lookupA (enqueueMsg q k f) c =
      if k = c then some ((lookupA q k).getD [] ++ [f]) else lookupA q c := by
  unfold enqueueMsg
  cases h : lookupA q k with
  | some msgs => rw [lookupA_setA]; simp [h]
  | none => rw [lookupA_setA]; simp [h]

theorem queueOf_enqueue (s : WSState) (q : List (String × List Frame))
    (k cid : String) (f : Frame) (hq : q = s.messageQueue) :
    queueOf { s with messageQueue := enqueueMsg q k f } cid =
      (if k = cid then queueOf s cid ++ [f] else queueOf s cid) := by
  subst hq
  unfold queueOf
  simp only [lookupA_enqueueMsg]
  by_cases h : k = cid
  · simp [h, queueOf]
  · simp [h]

theorem queueOf_sendToClient_qext (s : WSState) (c cid : String) (f : Frame) :
    qext (queueOf s cid) (queueOf (sendToClient s c f).1 cid) := by
  unfold sendToClient
  cases hcl : lookupA s.clients c with
  | some client =>
    by_cases ho : client.wsOpen = true
    · by_cases hk : client.sendOk = true
      · simp only [ho, hk, if_pos]
        exact qext_refl _
      · simp only [ho, if_pos, if_neg hk]
        exact qext_refl _
    · simp only [if_neg ho]
      rw [queueOf_enqueue s s.messageQueue c cid f rfl]
      by_cases h : c = cid
      · simp only [if_pos h]
        exact ⟨[f], rfl⟩
      · simp only [if_neg h]
        exact qext_refl _
  | none =>
    rw [queueOf_enqueue s s.messageQueue c cid f rfl]
    by_cases h : c = cid
    · simp only [if_pos h]
      exact ⟨[f], rfl⟩
    · simp only [if_neg h]
      exact qext_refl _

theorem queueOf_sendToClient_ne (s : WSState) (c cid : String) (f : Frame)
    (h : c ≠ cid) : queueOf (sendToClient s c f).1 cid = queueOf s cid := by
  unfold sendToClient
  cases hcl : lookupA s.clients c with
  | some client =>
    by_cases ho : client.wsOpen = true
    · by_cases hk : client.sendOk = true
      · simp only [ho, hk, if_pos]
      · simp only [ho, if_pos, if_neg hk]
    · simp only [if_neg ho]
      rw [queueOf_enqueue s s.messageQueue c cid f rfl, if_neg h]
  | none =>
    rw [queueOf_enqueue s s.messageQueue c cid f rfl, if_neg h]

theorem sendToClient_clients (s : WSState) (c : String) (f : Frame) :
    (sendToClient s c f).1.clients = s.clients := by
  unfold sendToClient
  cases hcl : lookupA s.clients c with
  | some client =>
    by_cases ho : client.wsOpen = true
    · by_cases hk : client.sendOk = true
      · simp [ho, hk]
      · simp [ho, hk]
    · simp [ho]
  | none => rfl

theorem sendToClient_rooms (s : WSState) (c : String) (f : Frame) :
    (sendToClient s c f).1.rooms = s.rooms := by
  unfold sendToClient
  cases hcl : lookupA s.clients c with
  | some client =>
    by_cases ho : client.wsOpen = true
    · by_cases hk : client.sendOk = true
      · simp [ho, hk]
      · simp [ho, hk]
    · simp [ho]
  | none => rfl

theorem sendToClient_sessions (s : WSState) (c : String) (f : Frame) :
    (sendToClient s c f).1.userSessions = s.userSessions := by
  unfold sendToClient
  cases hcl : lookupA s.clients c with
  | some client =>
    by_cases ho : client.wsOpen = true
    · by_cases hk : client.sendOk = true
      · simp [ho, hk]
      · simp [ho, hk]
    · simp [ho]
  | none => rfl

theorem queueOf_sendAllList_qext (f : Frame) (ex : List String) (cid : String) :
    ∀ (targets : List String) (s : WSState),
      qext (queueOf s cid) (queueOf (sendAllList s targets f ex).1 cid) := by
  intro targets
  induction targets with
  | nil => intro s; exact qext_refl _
  | cons t rest ih =>
    intro s
    unfold sendAllList
    by_cases hx : ex.contains t = true
    · simp only [if_pos hx]
      exact ih s
    · simp only [if_neg hx]
      exact qext_trans (queueOf_sendToClient_qext s t cid f) (ih _)

theorem queueOf_sendAllList_ne (f : Frame) (ex : List String) (cid : String) :
    ∀ (targets : List String) (s : WSState), cid ∉ targets →
      queueOf (sendAllList s targets f ex).1 cid = queueOf s cid := by
  intro targets
  induction targets with
  | nil => intro s _; rfl
  | cons t rest ih =>
    intro s hmem
    have ht : t ≠ cid := fun h => hmem (h ▸ List.mem_cons_self t rest)
    have hrest : cid ∉ rest := fun h => hmem (List.mem_cons_of_mem t h)
    unfold sendAllList
    by_cases hx : ex.contains t = true
    · simp only [if_pos hx]
      exact ih s hrest
    · simp only [if_neg hx]
      rw [ih _ hrest, queueOf_sendToClient_ne s t cid f ht]

theorem queueOf_broadcastToRoom_qext (s : WSState) (roomId : String) (f : Frame)
    (ex : List String) (cid : String) :
    qext (queueOf s cid) (queueOf (broadcastToRoom s roomId f ex).1 cid) := by
  unfold broadcastToRoom
  cases h : lookupA s.rooms roomId with
  | none => exact qext_refl _
  | some members => exact queueOf_sendAllList_qext f ex cid members s

theorem queueOf_bSubs_qext (channel : String) (f : Frame) (ex : List String) (cid : String) :
    ∀ (cs : List (String × Client)) (s : WSState),
      qext (queueOf s cid) (queueOf (bSubs s cs channel f ex).1 cid) := by
  intro cs
  induction cs with
  | nil => intro s; exact qext_refl _
  | cons p rest ih =>
    intro s
    obtain ⟨pc, pcl⟩ := p
    unfold bSubs
    by_cases hx : ex.contains pc = true
    · simp only [if_pos hx]
      exact ih s
    · simp only [if_neg hx]
      by_cases hs : pcl.subscriptions.contains channel = true
      · simp only [if_pos hs]
        exact qext_trans (queueOf_sendToClient_qext s pc cid f) (ih _)
      · simp only [if_neg hs]
        exact ih s

theorem queueOf_eq_of_mq (s s2 : WSState) (h : s2.messageQueue = s.messageQueue)
    (cid : String) : queueOf s2 cid = queueOf s cid := by
  unfold queueOf
  rw [h]

theorem leaveRoomState_mq (s : WSState) (c roomId : String) :
    (leaveRoomState s c roomId).messageQueue = s.messageQueue := by
  unfold leaveRoomState
  split
  · split
    · split
      · rfl
      · rfl
    · rfl
  · rfl

theorem queueOf_sendError_qext (s : WSState) (c code msg : String) (cid : String) :
    qext (queueOf s cid) (queueOf (sendError s c code msg).1 cid) :=
  queueOf_sendToClient_qext s c cid _

theorem queueOf_handleConnection_qext (s : WSState) (c : String) (o k : Bool) (cid : String) :
    qext (queueOf s cid) (queueOf (handleConnection s c o k).1 cid) := by
  simp only [handleConnection]
  exact queueOf_sendToClient_qext _ c cid _

theorem queueOf_handleAuth_qext (s : WSState) (c : String) (tok : AuthToken) (cid : String) :
    qext (queueOf s cid) (queueOf (handleAuth s c tok).1 cid) := by
  cases tok with
  | missing => exact queueOf_sendError_qext s c _ _ cid
  | invalid => exact queueOf_sendError_qext s c _ _ cid
  | valid uid email role =>
    simp only [handleAuth]
    split
    · exact qext_refl _
    · exact queueOf_sendToClient_qext _ c cid _

theorem queueOf_handleSubscribe_qext (s : WSState) (c : String)
    (chs : Option (List String)) (cid : String) :
    qext (queueOf s cid) (queueOf (handleSubscribe s c chs).1 cid) := by
  cases chs with
  | none => exact queueOf_sendError_qext s c _ _ cid
  | some channels =>
    simp only [handleSubscribe]
    split
    · exact qext_refl _
    · exact queueOf_sendToClient_qext _ c cid _

theorem queueOf_handleUnsubscribe_qext (s : WSState) (c : String)
    (chs : Option (List String)) (cid : String) :
    qext (queueOf s cid) (queueOf (handleUnsubscribe s c chs).1 cid) := by
  cases chs with
  | none => exact queueOf_sendError_qext s c _ _ cid
  | some channels =>
    simp only [handleUnsubscribe]
    split
    · exact qext_refl _
    · exact queueOf_sendToClient_qext _ c cid _

theorem queueOf_handleRealTimeSearch_qext (s : WSState) (c query : String)
    (results : List String) (cid : String) :
    qext (queueOf s cid) (queueOf (handleRealTimeSearch s c query results).1 cid) := by
  simp only [handleRealTimeSearch]
  split
  · exact queueOf_sendToClient_qext s c cid _
  · exact queueOf_sendToClient_qext s c cid _

theorem queueOf_handleTyping_qext (s : WSState) (c room : String) (isTyping : Bool)
    (cid : String) :
    qext (queueOf s cid) (queueOf (handleTyping s c room isTyping).1 cid) := by
  simp only [handleTyping]
  split
  · exact qext_refl _
  · split
    · exact qext_refl _
    · exact queueOf_broadcastToRoom_qext s room _ _ cid

theorem queueOf_handleHeartbeat_qext (s : WSState) (c : String) (now : Nat) (cid : String) :
    qext (queueOf s cid) (queueOf (handleHeartbeat s c now).1 cid) := by
  simp only [handleHeartbeat]
  split
  · exact qext_refl _
  · exact queueOf_sendToClient_qext _ c cid _

theorem queueOf_broadcastToSubscribers_qext (s : WSState) (channel : String) (f : Frame)
    (ex : List String) (cid : String) :
    qext (queueOf s cid) (queueOf (broadcastToSubscribers s channel f ex).1 cid) :=
  queueOf_bSubs_qext channel f ex cid s.clients s

theorem queueOf_handleJoinRoom_qext (s : WSState) (c roomId : String) (cid : String) :
    qext (queueOf s cid) (queueOf (handleJoinRoom s c roomId).1 cid) := by
  simp only [handleJoinRoom]
  refine qext_trans ?_ (queueOf_broadcastToRoom_qext _ _ _ _ cid)
  exact queueOf_sendToClient_qext _ c cid _

theorem queueOf_handleLeaveRoom_qext (s : WSState) (c roomId : String) (cid : String) :
    qext (queueOf s cid) (queueOf (handleLeaveRoom s c roomId).1 cid) := by
  have hL : queueOf (leaveRoomState s c roomId) cid = queueOf s cid :=
    queueOf_eq_of_mq s _ (leaveRoomState_mq s c roomId) cid
  simp only [handleLeaveRoom]
  split
  · refine qext_trans ?_ (queueOf_broadcastToRoom_qext _ _ _ _ cid)
    exact hL ▸ queueOf_sendToClient_qext (leaveRoomState s c roomId) c cid _
  · exact hL ▸ queueOf_sendToClient_qext (leaveRoomState s c roomId) c cid _

theorem queueOf_handleChatMessage_qext (s : WSState) (c roomId msg : String) (cid : String) :
    qext (queueOf s cid) (queueOf (handleChatMessage s c roomId msg).1 cid) := by
  simp only [handleChatMessage]
  split
  · exact queueOf_sendError_qext s c _ _ cid
  · split
    · exact queueOf_sendError_qext s c _ _ cid
    · exact queueOf_broadcastToRoom_qext s roomId _ _ cid

theorem queueOf_handleEntryEdit_qext (s : WSState) (c entryId operation dataStr : String)
    (cid : String) :
    qext (queueOf s cid) (queueOf (handleEntryEdit s c entryId operation dataStr).1 cid) := by
  simp only [handleEntryEdit]
  split
  · exact queueOf_sendError_qext s c _ _ cid
  · split
    · exact queueOf_sendError_qext s c _ _ cid
    · split
      · split
        · exact queueOf_sendError_qext _ c _ _ cid
        · exact queueOf_broadcastToSubscribers_qext _ _ _ _ cid
      · exact queueOf_sendError_qext s c _ _ cid

theorem queueOf_sweepRooms_qext (c : String) (cl : Client) (cid : String)
    (rooms : List (String × List String)) :
    ∀ (s : WSState), qext (queueOf s cid) (queueOf (sweepRooms s c cl rooms).1 cid) := by
  induction rooms with
  | nil => intro s; exact qext_refl _
  | cons p rest ih =>
    intro s
    obtain ⟨rid, ms⟩ := p
    unfold sweepRooms
    by_cases hc : ms.contains c = true
    · rw [if_pos hc]
      by_cases he : (ms.filter (fun m => m ≠ c)).isEmpty = true
      · rw [if_pos he]
        exact qext_trans (queueOf_sendAllList_qext _ _ cid _ s) (ih _)
      · rw [if_neg he]
        exact qext_trans (queueOf_sendAllList_qext _ _ cid _ s) (ih _)
    · rw [if_neg hc]
      exact ih s

theorem not_mem_filter_self (c : String) (ms : List String) :
    c ∉ ms.filter (fun m => m ≠ c) := by
  intro hm
  have := (List.mem_filter.mp hm).2
  simp at this

theorem queueOf_sweepRooms_self (c : String) (cl : Client)
    (rooms : List (String × List String)) :
    ∀ (s : WSState), queueOf (sweepRooms s c cl rooms).1 c = queueOf s c := by
  induction rooms with
  | nil => intro s; rfl
  | cons p rest ih =>
    intro s
    obtain ⟨rid, ms⟩ := p
    unfold sweepRooms
    by_cases hc : ms.contains c = true
    · rw [if_pos hc]
      have hsend : queueOf (sendAllList s (ms.filter (fun m => m ≠ c))
          ⟨"user_left", Payload.userLeft rid cl.userId⟩ []).1 c = queueOf s c :=
        queueOf_sendAllList_ne _ _ c _ s (not_mem_filter_self c ms)
      by_cases he : (ms.filter (fun m => m ≠ c)).isEmpty = true
      · rw [if_pos he]
        rw [ih _, hsend]
      · rw [if_neg he]
        rw [ih _, hsend]
    · rw [if_neg hc]
      exact ih s

theorem queueOf_handleDisconnection_qext (s : WSState) (c : String) (cid : String) :
    qext (queueOf s cid) (queueOf (handleDisconnection s c).1 cid) := by
  simp only [handleDisconnection]
  split
  · exact queueOf_sweepRooms_qext c _ cid _ _
  · exact qext_refl _

theorem queueOf_handleDisconnection_self (s : WSState) (c : String) :
    queueOf (handleDisconnection s c).1 c = queueOf s c := by
  simp only [handleDisconnection]
  split
  · exact queueOf_sweepRooms_self c _ _ _
  · rfl

/-! ## The operation alphabet of the manager -/

/-- One inbound operation handled by the `WebSocketManager`: a transport
accept, each dispatched frame type, a direct send, a dispatcher error
reply (invalid JSON / missing or unknown type / internal error), or a
disconnection. -/
inductive WSOp where
  | connect (clientId : String) (wsOpen sendOk : Bool)
  | auth (clientId : String) (tok : AuthToken)
  | subscribeCmd (clientId : String) (channels : Option (List String))
  | unsubscribeCmd (clientId : String) (channels : Option (List String))
  | searchCmd (clientId query : String) (results : List String)
  | typingCmd (clientId room : String) (isTyping : Bool)
  | heartbeatCmd (clientId : String) (now : Nat)
  | joinRoomCmd (clientId roomId : String)
  | leaveRoomCmd (clientId roomId : String)
  | chatCmd (clientId roomId message : String)
  | entryEditCmd (clientId entryId operation dataStr : String)
  | sendCmd (clientId : String) (f : Frame)
  | errorCmd (clientId code message : String)
  | disconnectCmd (clientId : String)

def step (s : WSState) : WSOp → WSState × List (String × Frame)
  | WSOp.connect c o k => handleConnection s c o k
  | WSOp.auth c tok => handleAuth s c tok
  | WSOp.subscribeCmd c chs => handleSubscribe s c chs
  | WSOp.unsubscribeCmd c chs => handleUnsubscribe s c chs
  | WSOp.searchCmd c q res => handleRealTimeSearch s c q res
  | WSOp.typingCmd c room t => handleTyping s c room t
  | WSOp.heartbeatCmd c now => handleHeartbeat s c now
  | WSOp.joinRoomCmd c roomId => handleJoinRoom s c roomId
  | WSOp.leaveRoomCmd c roomId => handleLeaveRoom s c roomId
  | WSOp.chatCmd c roomId msg => handleChatMessage s c roomId msg
  | WSOp.entryEditCmd c e op d => handleEntryEdit s c e op d
  | WSOp.sendCmd c f => ((sendToClient s c f).1, (sendToClient s c f).2.1)
  | WSOp.errorCmd c code msg => sendError s c code msg
  | WSOp.disconnectCmd c => handleDisconnection s c

/-- C9: no `WebSocketManager` operation ever dequeues or delivers queued
frames: every operation extends each per-client message queue at the end
(so queue lengths are monotonically non-decreasing and old entries
survive in place), a client's own queue is exactly preserved by its
disconnection, and `getStats` reports the total queued count summed over
all per-client queues. -/
theorem messageQueue_never_drained :
    ∀ (s : WSState) (op : WSOp) (cid : String),
      (∃ tail, queueOf (step s op).1 cid = queueOf s cid ++ tail) ∧
      (queueOf s cid).length ≤ (queueOf (step s op).1 cid).length ∧
      queueOf (step s (WSOp.disconnectCmd cid)).1 cid = queueOf s cid ∧
      (getStats s).queuedMessages =
        (s.messageQueue.map (fun p => p.2.length)).foldl (fun a b => a + b) 0 := by
  intro s op cid
  have hq : qext (queueOf s cid) (queueOf (step s op).1 cid) := by
    cases op with
    | connect c o k => exact queueOf_handleConnection_qext s c o k cid
    | auth c tok => exact queueOf_handleAuth_qext s c tok cid
    | subscribeCmd c chs => exact queueOf_handleSubscribe_qext s c chs cid
    | unsubscribeCmd c chs => exact queueOf_handleUnsubscribe_qext s c chs cid
    | searchCmd c q res => exact queueOf_handleRealTimeSearch_qext s c q res cid
    | typingCmd c room t => exact queueOf_handleTyping_qext s c room t cid
    | heartbeatCmd c now => exact queueOf_handleHeartbeat_qext s c now cid
    | joinRoomCmd c roomId => exact queueOf_handleJoinRoom_qext s c roomId cid
    | leaveRoomCmd c roomId => exact queueOf_handleLeaveRoom_qext s c roomId cid
    | chatCmd c roomId msg => exact queueOf_handleChatMessage_qext s c roomId msg cid
    | entryEditCmd c e o2 d => exact queueOf_handleEntryEdit_qext s c e o2 d cid
    | sendCmd c f => exact queueOf_sendToClient_qext s c cid f
    | errorCmd c code msg => exact queueOf_sendError_qext s c code msg cid
    | disconnectCmd c => exact queueOf_handleDisconnection_qext s c cid
  exact ⟨hq, qext_len hq, queueOf_handleDisconnection_self s cid, rfl⟩

/-! ## Case equations for `sendToClient` -/

theorem sendToClient_missing (s : WSState) (c : String) (f : Frame)
    (h : lookupA s.clients c = none) :
    sendToClient s c f =
      ({ s with messageQueue := enqueueMsg s.messageQueue c f }, [], false) := by
  unfold sendToClient
  rw [h]

theorem sendToClient_closed (s : WSState) (c : String) (f : Frame) (cl : Client)
    (h : lookupA s.clients c = some cl) (ho : cl.wsOpen = false) :
    sendToClient s c f =
      ({ s with messageQueue := enqueueMsg s.messageQueue c f }, [], false) := by
  unfold sendToClient
  rw [h]
  simp [ho]

theorem sendToClient_open (s : WSState) (c : String) (f : Frame) (cl : Client)
    (h : lookupA s.clients c = some cl) (ho : cl.wsOpen = true) (hk : cl.sendOk = true) :
    sendToClient s c f = (s, [(c, f)], true) := by
  unfold sendToClient
  rw [h]
  simp [ho, hk]

theorem queueOf_enqueue_self (s : WSState) (c : String) (f : Frame) :
    queueOf { s with messageQueue := enqueueMsg s.messageQueue c f } c =
      queueOf s c ++ [f] := by
  rw [queueOf_enqueue s s.messageQueue c c f rfl, if_pos rfl]

/-! ## Claim C5: sendToClient and the per-connection backlog -/

def exFrame : Frame := ⟨"notification", Payload.heartbeatAck⟩

/-- Repeated `sendToClient` calls to one connection id. -/
def iterSend (f : Frame) (cid : String) : Nat → WSState → WSState
  | 0, s => s
  | n + 1, s => iterSend f cid n (sendToClient s cid f).1

theorem iterSend_queue_len (f : Frame) (cid : String) :
    ∀ (n : Nat) (s : WSState), lookupA s.clients cid = none →
      (queueOf (iterSend f cid n s) cid).length = n + (queueOf s cid).length := by
  intro n
  induction n with
  | zero => intro s _; simp [iterSend]
  | succ m ih =>
    intro s h
    have h2 : lookupA (sendToClient s cid f).1.clients cid = none := by
      rw [sendToClient_clients]; exact h
    have hstep : queueOf (sendToClient s cid f).1 cid = queueOf s cid ++ [f] := by
      rw [sendToClient_missing s cid f h]
      exact queueOf_enqueue_self s cid f
    show (queueOf (iterSend f cid m (sendToClient s cid f).1) cid).length = _
    rw [ih _ h2, hstep]
    simp
    omega

/-- C5 counterexample: the claim asserts the per-connection backlog is
bounded by some fixed bound, but repeatedly calling `sendToClient` for a
connection with no writable transport grows the queue by one each time,
beyond any bound. -/
theorem sendToClient_backlog_bounded_cex :
    ¬ ∃ bound : Nat, ∀ n : Nat,
      (queueOf (iterSend exFrame ("c") n emptyWS) ("c")).length ≤ bound := by
  rintro ⟨bound, hb⟩
  have h := hb (bound + 1)
  rw [iterSend_queue_len exFrame ("c") (bound + 1) emptyWS rfl] at h
  have hz : (queueOf emptyWS ("c")).length = 0 := rfl
  omega

/-- C5 (amended): `sendToClient` returns `true` exactly when the frame is
written to an open transport whose send succeeds; when the connection id
is unknown or its transport is not open it returns `false` and appends
the frame to the per-connection backlog — but that backlog is unbounded:
each such call grows it by one, exceeding any fixed bound. -/
theorem sendToClient_semantics :
    (∀ (s : WSState) (c : String) (f : Frame) (cl : Client),
        lookupA s.clients c = some cl → cl.wsOpen = true → cl.sendOk = true →
        sendToClient s c f = (s, [(c, f)], true)) ∧
    (∀ (s : WSState) (c : String) (f : Frame),
        (lookupA s.clients c = none ∨
          (∃ cl, lookupA s.clients c = some cl ∧ cl.wsOpen = false)) →
        (sendToClient s c f).2.2 = false ∧
        queueOf (sendToClient s c f).1 c = queueOf s c ++ [f]) ∧
    (∀ bound : Nat,
        bound < (queueOf (iterSend exFrame ("c") (bound + 1) emptyWS) ("c")).length) := by
  refine ⟨sendToClient_open, ?_, ?_⟩
  · intro s c f h
    rcases h with h | ⟨cl, hcl, ho⟩
    · rw [sendToClient_missing s c f h]
      exact ⟨rfl, queueOf_enqueue_self s c f⟩
    · rw [sendToClient_closed s c f cl hcl ho]
      exact ⟨rfl, queueOf_enqueue_self s c f⟩
  · intro bound
    rw [iterSend_queue_len exFrame ("c") (bound + 1) emptyWS rfl]
    have hz : (queueOf emptyWS ("c")).length = 0 := rfl
    omega

def exOpenClient : Client :=
  { clientId := "c", wsOpen := true, sendOk := true, userId := none,
    email := none, role := none, subscriptions := [], lastHeartbeat := 0 }

def exC5State : WSState := { emptyWS with clients := [(("c"), exOpenClient)] }

/-- Witness for C5 at concrete inputs: an open connection gets the frame
written and `true` back; an unknown connection id gets `false` and the
frame queued. -/
theorem sendToClient_semantics_witness :
    sendToClient exC5State ("c") exFrame = (exC5State, [(("c"), exFrame)], true) ∧
    ((sendToClient emptyWS ("c") exFrame).2.2 = false ∧
      queueOf (sendToClient emptyWS ("c") exFrame).1 ("c") =
        queueOf emptyWS ("c") ++ [exFrame]) ∧
    0 < (queueOf (iterSend exFrame ("c") 1 emptyWS) ("c")).length :=
  ⟨sendToClient_semantics.1 exC5State ("c") exFrame exOpenClient rfl rfl rfl,
    sendToClient_semantics.2.1 emptyWS ("c") exFrame (Or.inl rfl),
    sendToClient_semantics.2.2 0⟩

/-! ## Frame accounting: what a given connection receives -/

/-- The frames written to connection `cid` among the wire outputs. -/
def wireTo (outs : List (String × Frame)) (cid : String) : List Frame :=
  (outs.filter (fun p => p.1 == cid)).map (fun p => p.2)

/-- The frames newly queued for `cid` between two states. -/
def queueDelta (s s2 : WSState) (cid : String) : List Frame :=
  (queueOf s2 cid).drop (queueOf s cid).length

/-- Everything connection `cid` receives from a handler invocation:
frames written to its transport plus frames queued for it. -/
def framesTo (s s2 : WSState) (outs : List (String × Frame)) (cid : String) : List Frame :=
  wireTo outs cid ++ queueDelta s s2 cid

theorem framesTo_single_send (s1 s : WSState) (c : String) (f : Frame) (cl2 : Client)
    (hmq : s1.messageQueue = s.messageQueue)
    (hcl : lookupA s1.clients c = some cl2) (hk : cl2.sendOk = true) :
    framesTo s (sendToClient s1 c f).1 (sendToClient s1 c f).2.1 c = [f] ∧
    (∀ p ∈ (sendToClient s1 c f).2.1, p.1 = c) ∧
    (∀ c2, c2 ≠ c → queueOf (sendToClient s1 c f).1 c2 = queueOf s c2) := by
  have h1 : queueOf s1 c = queueOf s c := queueOf_eq_of_mq s s1 hmq c
  by_cases ho : cl2.wsOpen = true
  · rw [sendToClient_open s1 c f cl2 hcl ho hk]
    refine ⟨?_, ?_, ?_⟩
    · unfold framesTo wireTo queueDelta
      rw [h1]
      simp [List.drop_length]
    · intro p hp
      simp only [List.mem_singleton] at hp
      rw [hp]
    · intro c2 _
      exact queueOf_eq_of_mq s s1 hmq c2
  · rw [sendToClient_closed s1 c f cl2 hcl (by revert ho; cases cl2.wsOpen <;> simp)]
    refine ⟨?_, ?_, ?_⟩
    · unfold framesTo wireTo queueDelta
      rw [queueOf_enqueue_self s1 c f, h1]
      simp [List.drop_left]
    · intro p hp
      simp at hp
    · intro c2 hne
      rw [queueOf_enqueue s1 s1.messageQueue c c2 f rfl,
        if_neg (fun hcc => hne hcc.symm)]
      exact queueOf_eq_of_mq s s1 hmq c2

/-! ## Claim C6: subscription filtering -/

/-- The channel names a subscribe request is granted: the requested names
that are in the role-derived allowed set, in request order. -/
def grantedOf (cl : Client) (channels : List String) : List String :=
  channels.filter (fun ch => (getAllowedChannels cl.role).contains ch)

theorem subLoop_spec (allowed : List String) :
    ∀ (channels subs : List String),
      subLoop subs allowed channels =
        ((channels.filter (fun ch => allowed.contains ch)).foldl setAdd subs,
          channels.filter (fun ch => allowed.contains ch)) := by
  intro channels
  induction channels with
  | nil => intro subs; rfl
  | cons ch rest ih =>
    intro subs
    unfold subLoop
    by_cases h : allowed.contains ch = true
    · rw [if_pos h]
      simp only [ih, List.filter_cons, h, if_pos, List.foldl_cons]
    · rw [if_neg h]
      simp only [ih, List.filter_cons, h]
      simp [h]

/-- The client record after `handleSubscribe`: the old subscriptions plus
the granted names, in order, without duplicates. -/
def subscribedClient (cl : Client) (channels : List String) : Client :=
  { cl with subscriptions := (grantedOf cl channels).foldl setAdd cl.subscriptions }

def subscribeState (s : WSState) (c : String) (cl : Client) (channels : List String) : WSState :=
  { s with clients := setA s.clients c (subscribedClient cl channels) }

theorem handleSubscribe_some (s : WSState) (c : String) (cl : Client)
    (channels : List String) (hcl : lookupA s.clients c = some cl) :
    handleSubscribe s c (some channels) =
      ((sendToClient (subscribeState s c cl channels) c
          ⟨"subscribed", Payload.subscribed (grantedOf cl channels)⟩).1,
        (sendToClient (subscribeState s c cl channels) c
          ⟨"subscribed", Payload.subscribed (grantedOf cl channels)⟩).2.1) := by
  unfold handleSubscribe subscribeState subscribedClient grantedOf
  rw [hcl]
  simp only [subLoop_spec]

/-- C6: `handleSubscribe` grants exactly the requested channel names that
lie in the connection's role-derived allowed set (an unauthenticated
connection has no bound role and so gets the anonymous-tier set),
silently dropping disallowed names: the connection's subscription set
becomes the old set plus the granted names, the sender receives exactly
one `subscribed` frame carrying the granted list and no error frame,
nothing is sent to anyone else, and in particular an anonymous connection
requesting `["admin:*"]` is granted nothing and its client record is
unchanged. -/
theorem handleSubscribe_grants_allowed_only :
    ∀ (s : WSState) (c : String) (cl : Client) (channels : List String),
      lookupA s.clients c = some cl → cl.sendOk = true →
      (lookupA (handleSubscribe s c (some channels)).1.clients c =
        some (subscribedClient cl channels)) ∧
      framesTo s (handleSubscribe s c (some channels)).1
          (handleSubscribe s c (some channels)).2 c =
        [⟨"subscribed", Payload.subscribed (grantedOf cl channels)⟩] ∧
      (∀ p ∈ (handleSubscribe s c (some channels)).2, p.1 = c) ∧
      (∀ f ∈ framesTo s (handleSubscribe s c (some channels)).1
          (handleSubscribe s c (some channels)).2 c, f.type ≠ "error") ∧
      (∀ c2, c2 ≠ c → queueOf (handleSubscribe s c (some channels)).1 c2 = queueOf s c2) ∧
      (cl.role = none → channels = [("admin:*")] →
        grantedOf cl channels = [] ∧
        lookupA (handleSubscribe s c (some channels)).1.clients c = some cl) := by
  intro s c cl channels hcl hk
  rw [handleSubscribe_some s c cl channels hcl]
  have hmq : (subscribeState s c cl channels).messageQueue = s.messageQueue := rfl
  have hlk : lookupA (subscribeState s c cl channels).clients c =
      some (subscribedClient cl channels) := by
    show lookupA (setA s.clients c (subscribedClient cl channels)) c = _
    rw [lookupA_setA, if_pos rfl]
  have hk2 : (subscribedClient cl channels).sendOk = true := hk
  have hmain := framesTo_single_send (subscribeState s c cl channels) s c
    ⟨"subscribed", Payload.subscribed (grantedOf cl channels)⟩
    (subscribedClient cl channels) hmq hlk hk2
  refine ⟨?_, hmain.1, hmain.2.1, ?_, hmain.2.2, ?_⟩
  · rw [sendToClient_clients]
    exact hlk
  · intro f hf
    rw [hmain.1] at hf
    simp only [List.mem_singleton] at hf
    rw [hf]
    intro hcontr
    simp at hcontr
  · intro hrole hch
    subst hch
    have hg : grantedOf cl [("admin:*")] = [] := by
      unfold grantedOf getAllowedChannels roleGE
      rw [hrole]
      rfl
    refine ⟨hg, ?_⟩
    rw [sendToClient_clients, hlk]
    unfold subscribedClient
    rw [hg]
    rfl

def exAnonState : WSState := { emptyWS with clients := [(("a"), exOpenClient)] }

/-- Witness for C6 at the claim's own scenario: an anonymous (never
authenticated) connection requesting `["admin:*"]` gets a `subscribed`
frame with an empty channel list, no error frame, and an unchanged
client record. -/
theorem handleSubscribe_grants_allowed_only_witness :
    framesTo exAnonState (handleSubscribe exAnonState ("a") (some [("admin:*")])).1
        (handleSubscribe exAnonState ("a") (some [("admin:*")])).2 ("a") =
      [⟨"subscribed", Payload.subscribed (grantedOf exOpenClient [("admin:*")])⟩] ∧
    grantedOf exOpenClient [("admin:*")] = [] ∧
    lookupA (handleSubscribe exAnonState ("a") (some [("admin:*")])).1.clients ("a") =
      some exOpenClient := by
  have h := handleSubscribe_grants_allowed_only exAnonState ("a") exOpenClient
    [("admin:*")] rfl rfl
  have h6 := h.2.2.2.2.2 rfl rfl
  exact ⟨h.2.1, h6.1, h6.2⟩

/-! ## Claim C10: typing is silent for unauthenticated senders -/

def unauthAt (s : WSState) (c : String) : Prop :=
  lookupA s.clients c = none ∨
    (∃ cl, lookupA s.clients c = some cl ∧ cl.userId = none)

theorem handleTyping_unauth (s : WSState) (c room : String) (t : Bool)
    (h : unauthAt s c) : handleTyping s c room t = (s, []) := by
  unfold handleTyping
  rcases h with h | ⟨cl, hcl, hu⟩
  · rw [h]
  · rw [hcl]
    simp only [hu]

theorem handleChatMessage_unauth (s : WSState) (c roomId msg : String)
    (h : unauthAt s c) :
    handleChatMessage s c roomId msg =
      sendError s c ("UNAUTHORIZED") ("Authentication required") := by
  unfold handleChatMessage
  rcases h with h | ⟨cl, hcl, hu⟩
  · rw [h]
  · rw [hcl]
    simp only [hu]

theorem handleEntryEdit_unauth (s : WSState) (c entryId operation dataStr : String)
    (h : unauthAt s c) :
    handleEntryEdit s c entryId operation dataStr =
      sendError s c ("UNAUTHORIZED") ("Authentication required") := by
  unfold handleEntryEdit
  rcases h with h | ⟨cl, hcl, hu⟩
  · rw [h]
  · rw [hcl]
    simp only [hu]

theorem framesTo_send_ok (s1 s : WSState) (c : String) (f : Frame)
    (hmq : s1.messageQueue = s.messageQueue)
    (hk : ∀ cl, lookupA s1.clients c = some cl → cl.sendOk = true) :
    framesTo s (sendToClient s1 c f).1 (sendToClient s1 c f).2.1 c = [f] := by
  cases hcl : lookupA s1.clients c with
  | some cl => exact (framesTo_single_send s1 s c f cl hmq hcl (hk cl hcl)).1
  | none =>
    rw [sendToClient_missing s1 c f hcl]
    unfold framesTo wireTo queueDelta
    rw [queueOf_enqueue_self s1 c f, queueOf_eq_of_mq s s1 hmq c]
    simp [List.drop_left]

/-- C10: a `typing` frame from an unknown connection id or from a
connection with no bound user identity is silently ignored — the state is
unchanged and nothing at all (in particular no error frame and no
presence fan-out) is emitted — in contrast to `chat_message` and
`entry_edit`, which answer the same unauthenticated sender with exactly
one `UNAUTHORIZED` error frame. -/
theorem typing_unauthenticated_silent :
    ∀ (s : WSState) (c room roomId msg entryId operation dataStr : String) (isTyping : Bool),
      unauthAt s c →
      (∀ cl, lookupA s.clients c = some cl → cl.sendOk = true) →
      handleTyping s c room isTyping = (s, []) ∧
      framesTo s (handleChatMessage s c roomId msg).1 (handleChatMessage s c roomId msg).2 c =
        [⟨"error", Payload.error ("UNAUTHORIZED") ("Authentication required")⟩] ∧
      framesTo s (handleEntryEdit s c entryId operation dataStr).1
          (handleEntryEdit s c entryId operation dataStr).2 c =
        [⟨"error", Payload.error ("UNAUTHORIZED") ("Authentication required")⟩] := by
  intro s c room roomId msg entryId operation dataStr isTyping hun hk
  refine ⟨handleTyping_unauth s c room isTyping hun, ?_, ?_⟩
  · rw [handleChatMessage_unauth s c roomId msg hun]
    exact framesTo_send_ok s s c _ rfl hk
  · rw [handleEntryEdit_unauth s c entryId operation dataStr hun]
    exact framesTo_send_ok s s c _ rfl hk

/-- Witness for C10 at a concrete input: an unknown connection id typing
into a room is ignored, while its chat and edit commands get the
`UNAUTHORIZED` error frame. -/
theorem typing_unauthenticated_silent_witness :
    handleTyping emptyWS ("x") ("r") true = (emptyWS, []) ∧
    framesTo emptyWS (handleChatMessage emptyWS ("x") ("r") ("hi")).1
        (handleChatMessage emptyWS ("x") ("r") ("hi")).2 ("x") =
      [⟨"error", Payload.error ("UNAUTHORIZED") ("Authentication required")⟩] ∧
    framesTo emptyWS (handleEntryEdit emptyWS ("x") ("42") ("insert") ("d")).1
        (handleEntryEdit emptyWS ("x") ("42") ("insert") ("d")).2 ("x") =
      [⟨"error", Payload.error ("UNAUTHORIZED") ("Authentication required")⟩] :=
  typing_unauthenticated_silent emptyWS ("x") ("r") ("r") ("hi") ("42") ("insert") ("d") true
    (Or.inl rfl) (fun cl hcl => by simp [emptyWS, lookupA] at hcl)

/-! ## Claim C7: disconnection cleanup -/

/-- The rooms map after the disconnection sweep, as a pure function:
member deleted from each room containing it, rooms left empty dropped. -/
def sweepPure (clientId : String) : List (String × List String) → List (String × List String)
  | [] => []
  | (roomId, ms) :: rest =>
    if ms.contains clientId then
      if (ms.filter (fun m => m ≠ clientId)).isEmpty then sweepPure clientId rest
      else (roomId, ms.filter (fun m => m ≠ clientId)) :: sweepPure clientId rest
    else (roomId, ms) :: sweepPure clientId rest

theorem sweepRooms_rooms (c : String) (cl : Client) :
    ∀ (rooms : List (String × List String)) (s : WSState),
      (sweepRooms s c cl rooms).2.1 = sweepPure c rooms := by
  intro rooms
  induction rooms with
  | nil => intro s; rfl
  | cons p rest ih =>
    intro s
    obtain ⟨rid, ms⟩ := p
    unfold sweepRooms sweepPure
    by_cases hc : ms.contains c = true
    · rw [if_pos hc, if_pos hc]
      by_cases he : (ms.filter (fun m => m ≠ c)).isEmpty = true
      · rw [if_pos he, if_pos he]
        exact ih _
      · rw [if_neg he, if_neg he]
        simp only [ih]
    · rw [if_neg hc, if_neg hc]
      simp only [ih]

theorem sendAllList_clients (f : Frame) (ex : List String) :
    ∀ (targets : List String) (s : WSState),
      (sendAllList s targets f ex).1.clients = s.clients := by
  intro targets
  induction targets with
  | nil => intro s; rfl
  | cons t rest ih =>
    intro s
    unfold sendAllList
    by_cases hx : ex.contains t = true
    · rw [if_pos hx]
      exact ih s
    · rw [if_neg hx]
      rw [ih _, sendToClient_clients]

theorem sweepRooms_clients (c : String) (cl : Client) :
    ∀ (rooms : List (String × List String)) (s : WSState),
      (sweepRooms s c cl rooms).1.clients = s.clients := by
  intro rooms
  induction rooms with
  | nil => intro s; rfl
  | cons p rest ih =>
    intro s
    obtain ⟨rid, ms⟩ := p
    unfold sweepRooms
    by_cases hc : ms.contains c = true
    · rw [if_pos hc]
      by_cases he : (ms.filter (fun m => m ≠ c)).isEmpty = true
      · rw [if_pos he]
        rw [ih _, sendAllList_clients]
      · rw [if_neg he]
        rw [ih _, sendAllList_clients]
    · rw [if_neg hc]
      exact ih s

theorem sweepPure_no_member (c : String) :
    ∀ (rooms : List (String × List String)), ∀ p ∈ sweepPure c rooms, c ∉ p.2 := by
  intro rooms
  induction rooms with
  | nil => intro p hp; simp [sweepPure] at hp
  | cons q rest ih =>
    intro p hp
    obtain ⟨rid, ms⟩ := q
    unfold sweepPure at hp
    by_cases hc : ms.contains c = true
    · rw [if_pos hc] at hp
      by_cases he : (ms.filter (fun m => m ≠ c)).isEmpty = true
      · rw [if_pos he] at hp
        exact ih p hp
      · rw [if_neg he] at hp
        rcases List.mem_cons.mp hp with h | h
        · rw [h]
          exact not_mem_filter_self c ms
        · exact ih p h
    · rw [if_neg hc] at hp
      rcases List.mem_cons.mp hp with h | h
      · rw [h]
        intro hm
        exact hc (List.elem_eq_true_of_mem hm)
      · exact ih p h

theorem lookupA_none_of_no_key {α : Type} (l : List (String × α)) (key : String)
    (h : ∀ p ∈ l, p.1 ≠ key) : lookupA l key = none := by
  induction l with
  | nil => rfl
  | cons p rest ih =>
    obtain ⟨k, v⟩ := p
    unfold lookupA
    rw [if_neg (h (k, v) (List.mem_cons_self _ _))]
    exact ih (fun q hq => h q (List.mem_cons_of_mem _ hq))

theorem sweepPure_keys (c : String) :
    ∀ (rooms : List (String × List String)), ∀ p ∈ sweepPure c rooms,
      ∃ q ∈ rooms, p.1 = q.1 := by
  intro rooms
  induction rooms with
  | nil => intro p hp; simp [sweepPure] at hp
  | cons q rest ih =>
    intro p hp
    obtain ⟨rid, ms⟩ := q
    unfold sweepPure at hp
    by_cases hc : ms.contains c = true
    · rw [if_pos hc] at hp
      by_cases he : (ms.filter (fun m => m ≠ c)).isEmpty = true
      · rw [if_pos he] at hp
        obtain ⟨q2, hq2, he2⟩ := ih p hp
        exact ⟨q2, List.mem_cons_of_mem _ hq2, he2⟩
      · rw [if_neg he] at hp
        rcases List.mem_cons.mp hp with h | h
        · exact ⟨(rid, ms), List.mem_cons_self _ _, by rw [h]⟩
        · obtain ⟨q2, hq2, he2⟩ := ih p h
          exact ⟨q2, List.mem_cons_of_mem _ hq2, he2⟩
    · rw [if_neg hc] at hp
      rcases List.mem_cons.mp hp with h | h
      · exact ⟨(rid, ms), List.mem_cons_self _ _, by rw [h]⟩
      · obtain ⟨q2, hq2, he2⟩ := ih p h
        exact ⟨q2, List.mem_cons_of_mem _ hq2, he2⟩

/-- What the disconnection sweep does to one room's member set. -/
def sweepLookup (c : String) (r : Option (List String)) : Option (List String) :=
  match r with
  | none => none
  | some ms =>
    if ms.contains c then
      (if (ms.filter (fun m => m ≠ c)).isEmpty then none
       else some (ms.filter (fun m => m ≠ c)))
    else some ms

theorem lookupA_cons {α : Type} (k : String) (v : α) (rest : List (String × α))
    (key : String) :
    lookupA ((k, v) :: rest) key = if k = key then some v else lookupA rest key := rfl

theorem sweepPure_cons (c rid : String) (ms : List String)
    (rest : List (String × List String)) :
    sweepPure c ((rid, ms) :: rest) =
      (if ms.contains c then
        (if (ms.filter (fun m => m ≠ c)).isEmpty then sweepPure c rest
         else (rid, ms.filter (fun m => m ≠ c)) :: sweepPure c rest)
      else (rid, ms) :: sweepPure c rest) := rfl

theorem lookupA_sweepPure (c : String) :
    ∀ (rooms : List (String × List String)) (roomId : String),
      (rooms.map (fun p => p.1)).Nodup →
      lookupA (sweepPure c rooms) roomId = sweepLookup c (lookupA rooms roomId) := by
  intro rooms
  induction rooms with
  | nil => intro roomId _; rfl
  | cons q rest ih =>
    intro roomId hnd
    obtain ⟨rid, ms⟩ := q
    simp only [List.map_cons, List.nodup_cons] at hnd
    obtain ⟨hk, hnd2⟩ := hnd
    rw [sweepPure_cons, lookupA_cons]
    by_cases hr : rid = roomId
    · subst hr
      rw [if_pos rfl]
      have hnone : lookupA (sweepPure c rest) rid = none := by
        apply lookupA_none_of_no_key
        intro p hp
        obtain ⟨q2, hq2, he2⟩ := sweepPure_keys c rest p hp
        intro hcontr
        exact hk ((he2.symm.trans hcontr) ▸ List.mem_map_of_mem (fun p => p.1) hq2)
      by_cases hc : ms.contains c = true
      · rw [if_pos hc]
        by_cases he : (ms.filter (fun m => m ≠ c)).isEmpty = true
        · rw [if_pos he, hnone]
          show (none : Option (List String)) =
            (if ms.contains c = true then
              (if (ms.filter (fun m => m ≠ c)).isEmpty = true then none
               else some (ms.filter (fun m => m ≠ c)))
             else some ms)
          rw [if_pos hc, if_pos he]
        · rw [if_neg he, lookupA_cons, if_pos rfl]
          show some (ms.filter (fun m => m ≠ c)) =
            (if ms.contains c = true then
              (if (ms.filter (fun m => m ≠ c)).isEmpty = true then none
               else some (ms.filter (fun m => m ≠ c)))
             else some ms)
          rw [if_pos hc, if_neg he]
      · rw [if_neg hc, lookupA_cons, if_pos rfl]
        show some ms =
          (if ms.contains c = true then
            (if (ms.filter (fun m => m ≠ c)).isEmpty = true then none
             else some (ms.filter (fun m => m ≠ c)))
           else some ms)
        rw [if_neg hc]
    · rw [if_neg hr]
      by_cases hc : ms.contains c = true
      · rw [if_pos hc]
        by_cases he : (ms.filter (fun m => m ≠ c)).isEmpty = true
        · rw [if_pos he]
          exact ih roomId hnd2
        · rw [if_neg he, lookupA_cons, if_neg hr]
          exact ih roomId hnd2
      · rw [if_neg hc, lookupA_cons, if_neg hr]
        exact ih roomId hnd2

theorem sendAllList_sessions (f : Frame) (ex : List String) :
    ∀ (targets : List String) (s : WSState),
      (sendAllList s targets f ex).1.userSessions = s.userSessions := by
  intro targets
  induction targets with
  | nil => intro s; rfl
  | cons t rest ih =>
    intro s
    unfold sendAllList
    by_cases hx : ex.contains t = true
    · rw [if_pos hx]
      exact ih s
    · rw [if_neg hx]
      rw [ih _, sendToClient_sessions]

theorem sweepRooms_sessions (c : String) (cl : Client) :
    ∀ (rooms : List (String × List String)) (s : WSState),
      (sweepRooms s c cl rooms).1.userSessions = s.userSessions := by
  intro rooms
  induction rooms with
  | nil => intro s; rfl
  | cons p rest ih =>
    intro s
    obtain ⟨rid, ms⟩ := p
    unfold sweepRooms
    by_cases hc : ms.contains c = true
    · rw [if_pos hc]
      by_cases he : (ms.filter (fun m => m ≠ c)).isEmpty = true
      · rw [if_pos he]
        rw [ih _, sendAllList_sessions]
      · rw [if_neg he]
        rw [ih _, sendAllList_sessions]
    · rw [if_neg hc]
      exact ih s

theorem handleDisconnection_found (s : WSState) (c : String) (cl : Client)
    (hcl : lookupA s.clients c = some cl) :
    handleDisconnection s c =
      ({ (sweepRooms { s with userSessions := disconnectSessions s c cl } c cl s.rooms).1 with
          rooms :=
            (sweepRooms { s with userSessions := disconnectSessions s c cl } c cl s.rooms).2.1,
          clients := removeA
            (sweepRooms { s with userSessions := disconnectSessions s c cl } c cl
              s.rooms).1.clients c },
        (sweepRooms { s with userSessions := disconnectSessions s c cl } c cl s.rooms).2.2) := by
  unfold handleDisconnection
  rw [hcl]

/-- What disconnection does to the bound user's session set. -/
def sessionLookupAfter (c : String) (r : Option (List String)) : Option (List String) :=
  match r with
  | none => none
  | some set =>
    if (set.filter (fun x => x ≠ c)).isEmpty then none
    else some (set.filter (fun x => x ≠ c))

theorem lookupA_disconnectSessions (s : WSState) (c : String) (cl : Client) (uid : String)
    (hu : cl.userId = some uid) :
    lookupA (disconnectSessions s c cl) uid =
      sessionLookupAfter c (lookupA s.userSessions uid) := by
  unfold disconnectSessions
  rw [hu]
  show lookupA
      (match lookupA s.userSessions uid with
       | some set =>
         if (set.filter (fun x => x ≠ c)).isEmpty = true then removeA s.userSessions uid
         else setA s.userSessions uid (set.filter (fun x => x ≠ c))
       | none => s.userSessions) uid =
    sessionLookupAfter c (lookupA s.userSessions uid)
  cases hlk : lookupA s.userSessions uid with
  | none => exact hlk
  | some set =>
    show lookupA (if (set.filter (fun x => x ≠ c)).isEmpty = true
        then removeA s.userSessions uid
        else setA s.userSessions uid (set.filter (fun x => x ≠ c))) uid =
      sessionLookupAfter c (some set)
    by_cases he : (set.filter (fun x => x ≠ c)).isEmpty = true
    · rw [if_pos he, lookupA_removeA, if_pos rfl]
      show (none : Option (List String)) =
        (if (set.filter (fun x => x ≠ c)).isEmpty = true then none
         else some (set.filter (fun x => x ≠ c)))
      rw [if_pos he]
    · rw [if_neg he, lookupA_setA, if_pos rfl]
      show some (set.filter (fun x => x ≠ c)) =
        (if (set.filter (fun x => x ≠ c)).isEmpty = true then none
         else some (set.filter (fun x => x ≠ c)))
      rw [if_neg he]

/-- C7 (amended): disconnection removes the connection id from the
clients registry, from every room it was a member of (deleting rooms left
empty by the removal), and from its bound user's entry in the
user-session index (deleting the user's entry when its last connection
leaves) — but the per-connection message queue is NOT cleaned up: the
connection's queued frames, keyed by its id, survive in the manager's
state. -/
theorem handleDisconnection_cleanup :
    ∀ (s : WSState) (c : String) (cl : Client),
      lookupA s.clients c = some cl →
      (s.rooms.map (fun p => p.1)).Nodup →
      lookupA (handleDisconnection s c).1.clients c = none ∧
      (∀ p ∈ (handleDisconnection s c).1.rooms, c ∉ p.2) ∧
      (∀ roomId, lookupA (handleDisconnection s c).1.rooms roomId =
        sweepLookup c (lookupA s.rooms roomId)) ∧
      (∀ uid, cl.userId = some uid →
        lookupA (handleDisconnection s c).1.userSessions uid =
          sessionLookupAfter c (lookupA s.userSessions uid)) ∧
      queueOf (handleDisconnection s c).1 c = queueOf s c := by
  intro s c cl hcl hnd
  have hself := queueOf_handleDisconnection_self s c
  rw [handleDisconnection_found s c cl hcl] at *
  refine ⟨?_, ?_, ?_, ?_, hself⟩
  · show lookupA (removeA _ c) c = none
    rw [lookupA_removeA, if_pos rfl]
  · show ∀ p ∈ (sweepRooms { s with userSessions := disconnectSessions s c cl } c cl
        s.rooms).2.1, c ∉ p.2
    rw [sweepRooms_rooms]
    exact sweepPure_no_member c s.rooms
  · intro roomId
    show lookupA (sweepRooms { s with userSessions := disconnectSessions s c cl } c cl
        s.rooms).2.1 roomId = _
    rw [sweepRooms_rooms]
    exact lookupA_sweepPure c s.rooms roomId hnd
  · intro uid hu
    show lookupA (sweepRooms { s with userSessions := disconnectSessions s c cl } c cl
        s.rooms).1.userSessions uid = _
    rw [sweepRooms_sessions]
    exact lookupA_disconnectSessions s c cl uid hu

def exC7State : WSState := (handleConnection emptyWS ("c") false true).1

/-- C7 counterexample: a connection whose transport was not open at
accept time has its welcome frame queued; after disconnection the
connection id is gone from the clients registry, rooms and session index,
yet the message queue still holds an entry keyed by that connection id —
a dangling reference in the manager's state, refuting the claim as
stated. -/
theorem disconnect_leaves_queue_entry_cex :
    lookupA (handleDisconnection exC7State ("c")).1.clients ("c") = none ∧
    (handleDisconnection exC7State ("c")).1.rooms = [] ∧
    (handleDisconnection exC7State ("c")).1.userSessions = [] ∧
    lookupA (handleDisconnection exC7State ("c")).1.messageQueue ("c") =
      some [⟨"connection", Payload.connectionWelcome ("c")⟩] := by
  refine ⟨?_, ?_, ?_, ?_⟩ <;> rfl

def exClosedClient : Client :=
  { clientId := "c", wsOpen := false, sendOk := true, userId := none,
    email := none, role := none, subscriptions := [], lastHeartbeat := 0 }

/-- Witness for the amended C7 at a concrete input: the registry entry is
gone while the connection's queued welcome frame survives untouched. -/
theorem handleDisconnection_cleanup_witness :
    lookupA (handleDisconnection exC7State ("c")).1.clients ("c") = none ∧
    queueOf (handleDisconnection exC7State ("c")).1 ("c") = queueOf exC7State ("c") :=
  ⟨(handleDisconnection_cleanup exC7State ("c") exClosedClient rfl (by decide)).1,
    (handleDisconnection_cleanup exC7State ("c") exClosedClient rfl (by decide)).2.2.2.2⟩

/-! ## Claim C3: entry_edit appends and fans out to channel subscribers -/

theorem wireTo_append (a b : List (String × Frame)) (cid : String) :
    wireTo (a ++ b) cid = wireTo a cid ++ wireTo b cid := by
  simp [wireTo, List.filter_append]

theorem mem_of_lookupA {α : Type} (l : List (String × α)) (k : String) (v : α)
    (h : lookupA l k = some v) : (k, v) ∈ l := by
  induction l with
  | nil => simp [lookupA] at h
  | cons p rest ih =>
    obtain ⟨pk, pv⟩ := p
    rw [lookupA_cons] at h
    by_cases hk : pk = k
    · rw [if_pos hk] at h
      simp only [Option.some.injEq] at h
      subst hk
      subst h
      exact List.mem_cons_self _ _
    · rw [if_neg hk] at h
      exact List.mem_cons_of_mem _ (ih h)

theorem lookupA_of_mem_nodup {α : Type} (l : List (String × α)) (k : String) (v : α)
    (hnd : (l.map (fun p => p.1)).Nodup) (hm : (k, v) ∈ l) : lookupA l k = some v := by
  induction l with
  | nil => cases hm
  | cons p rest ih =>
    obtain ⟨pk, pv⟩ := p
    simp only [List.map_cons, List.nodup_cons] at hnd
    obtain ⟨hk1, hnd2⟩ := hnd
    rw [lookupA_cons]
    rcases List.mem_cons.mp hm with h | h
    · rw [Prod.mk.injEq] at h
      rw [if_pos h.1.symm, h.2]
    · by_cases hk : pk = k
      · exfalso
        apply hk1
        rw [hk]
        exact List.mem_map_of_mem (fun p => p.1) h
      · rw [if_neg hk]
        exact ih hnd2 h

theorem sendToClient_eventStore (s : WSState) (c : String) (f : Frame) :
    (sendToClient s c f).1.eventStore = s.eventStore := by
  unfold sendToClient
  cases hcl : lookupA s.clients c with
  | some client =>
    by_cases ho : client.wsOpen = true
    · by_cases hk : client.sendOk = true
      · simp [ho, hk]
      · simp [ho, hk]
    · simp [ho]
  | none => rfl

theorem bSubs_eventStore (channel : String) (f : Frame) (ex : List String) :
    ∀ (cs : List (String × Client)) (s : WSState),
      (bSubs s cs channel f ex).1.eventStore = s.eventStore := by
  intro cs
  induction cs with
  | nil => intro s; rfl
  | cons p rest ih =>
    intro s
    obtain ⟨pc, pcl⟩ := p
    unfold bSubs
    by_cases hx : ex.contains pc = true
    · rw [if_pos hx]
      exact ih s
    · rw [if_neg hx]
      by_cases hs : pcl.subscriptions.contains channel = true
      · rw [if_pos hs]
        rw [ih _, sendToClient_eventStore]
      · rw [if_neg hs]
        exact ih s

theorem wireTo_sendToClient_ne (s : WSState) (pc cid : String) (f : Frame)
    (h : pc ≠ cid) : wireTo (sendToClient s pc f).2.1 cid = [] := by
  unfold sendToClient
  cases hcl : lookupA s.clients pc with
  | some client =>
    by_cases ho : client.wsOpen = true
    · by_cases hk : client.sendOk = true
      · simp [ho, hk, wireTo, h]
      · simp [ho, hk, wireTo]
    · simp [ho, wireTo]
  | none => simp [wireTo]

/-- A connection that is excluded or not subscribed (wherever its id
appears in the clients map) gets nothing from `bSubs`. -/
theorem bSubs_skip (channel : String) (f : Frame) (ex : List String) (cid : String) :
    ∀ (cs : List (String × Client)) (s : WSState),
      (∀ p ∈ cs, p.1 = cid →
        (ex.contains cid = true ∨ p.2.subscriptions.contains channel = false)) →
      wireTo (bSubs s cs channel f ex).2.1 cid = [] ∧
      queueOf (bSubs s cs channel f ex).1 cid = queueOf s cid := by
  intro cs
  induction cs with
  | nil => intro s _; exact ⟨rfl, rfl⟩
  | cons p rest ih =>
    intro s hcond
    obtain ⟨pc, pcl⟩ := p
    have hrest : ∀ p ∈ rest, p.1 = cid →
        (ex.contains cid = true ∨ p.2.subscriptions.contains channel = false) :=
      fun p hp => hcond p (List.mem_cons_of_mem _ hp)
    unfold bSubs
    by_cases hx : ex.contains pc = true
    · rw [if_pos hx]
      exact ih s hrest
    · rw [if_neg hx]
      by_cases hs : pcl.subscriptions.contains channel = true
      · rw [if_pos hs]
        have hpc : pc ≠ cid := by
          intro he
          rcases hcond (pc, pcl) (List.mem_cons_self _ _) he with h | h
          · rw [he] at hx
            exact hx h
          · rw [hs] at h
            cases h
        obtain ⟨ho1, ho2⟩ := ih (sendToClient s pc f).1 hrest
        constructor
        · show wireTo ((sendToClient s pc f).2.1 ++
            (bSubs (sendToClient s pc f).1 rest channel f ex).2.1) cid = []
          rw [wireTo_append, ho1, wireTo_sendToClient_ne s pc cid f hpc]
          rfl
        · show queueOf (bSubs (sendToClient s pc f).1 rest channel f ex).1 cid = queueOf s cid
          rw [ho2, queueOf_sendToClient_ne s pc cid f hpc]
      · rw [if_neg hs]
        exact ih s hrest

/-- A non-excluded, subscribed connection receives the broadcast frame
exactly once (written to an open transport or queued). -/
theorem bSubs_hit (channel : String) (f : Frame) (ex : List String) (cid : String)
    (cl : Client) :
    ∀ (cs : List (String × Client)) (s : WSState),
      (cs.map (fun p => p.1)).Nodup →
      (cid, cl) ∈ cs →
      ex.contains cid = false →
      cl.subscriptions.contains channel = true →
      (∀ cl2, lookupA s.clients cid = some cl2 → cl2.sendOk = true) →
      framesTo s (bSubs s cs channel f ex).1 (bSubs s cs channel f ex).2.1 cid = [f] := by
  intro cs
  induction cs with
  | nil => intro s _ hm; cases hm
  | cons p rest ih =>
    intro s hnd hm hex hsub hok
    obtain ⟨pc, pcl⟩ := p
    simp only [List.map_cons, List.nodup_cons] at hnd
    obtain ⟨hk1, hnd2⟩ := hnd
    by_cases hpc : pc = cid
    · subst hpc
      have hpcl : pcl = cl := by
        rcases List.mem_cons.mp hm with h | h
        · exact (((Prod.mk.injEq _ _ _ _).mp h).2).symm
        · exact absurd (List.mem_map_of_mem (fun p => p.1) h) hk1
      subst hpcl
      unfold bSubs
      rw [if_neg (by rw [hex]; simp), if_pos hsub]
      have hnorest : ∀ p ∈ rest, p.1 = pc →
          (ex.contains pc = true ∨ p.2.subscriptions.contains channel = false) := by
        intro p hp hpe
        exact absurd (hpe ▸ List.mem_map_of_mem (fun p => p.1) hp) hk1
      obtain ⟨hw, hq⟩ := bSubs_skip channel f ex pc rest (sendToClient s pc f).1 hnorest
      have hsend := framesTo_send_ok s s pc f rfl hok
      show framesTo s (bSubs (sendToClient s pc f).1 rest channel f ex).1
        ((sendToClient s pc f).2.1 ++
          (bSubs (sendToClient s pc f).1 rest channel f ex).2.1) pc = [f]
      unfold framesTo queueDelta at hsend ⊢
      rw [wireTo_append, hw, hq, List.append_nil]
      exact hsend
    · have hmem : (cid, cl) ∈ rest := by
        rcases List.mem_cons.mp hm with h | h
        · exact absurd (((Prod.mk.injEq _ _ _ _).mp h).1).symm hpc
        · exact h
      unfold bSubs
      by_cases hx : ex.contains pc = true
      · rw [if_pos hx]
        exact ih s hnd2 hmem hex hsub hok
      · rw [if_neg hx]
        by_cases hs2 : pcl.subscriptions.contains channel = true
        · rw [if_pos hs2]
          have hok2 : ∀ cl2, lookupA (sendToClient s pc f).1.clients cid = some cl2 →
              cl2.sendOk = true := by
            rw [sendToClient_clients]
            exact hok
          have hrec := ih (sendToClient s pc f).1 hnd2 hmem hex hsub hok2
          have hq : queueOf (sendToClient s pc f).1 cid = queueOf s cid :=
            queueOf_sendToClient_ne s pc cid f hpc
          show framesTo s (bSubs (sendToClient s pc f).1 rest channel f ex).1
            ((sendToClient s pc f).2.1 ++
              (bSubs (sendToClient s pc f).1 rest channel f ex).2.1) cid = [f]
          unfold framesTo queueDelta at hrec ⊢
          rw [wireTo_append, wireTo_sendToClient_ne s pc cid f hpc]
          rw [hq] at hrec
          simpa using hrec
        · rw [if_neg hs2]
          exact ih s hnd2 hmem hex hsub hok

/-- The edit event `handleEntryEdit` builds for the event store. -/
def editEventOf (entryId operation dataStr uid : String) : InputEvent :=
  { eventType := "EntryEditOperation", aggregateId := entryId,
    aggregateType := "Entry", eventData := EventData.editOp operation dataStr uid }

/-- The state after `handleEntryEdit` has appended to the store, before
the broadcast. -/
def entryEditState (s : WSState) (entryId operation dataStr uid : String) : WSState :=
  { s with eventStore := (appendToStream s.eventStore ("entry-" ++ entryId)
      [editEventOf entryId operation dataStr uid] (-1)).1 }

theorem handleEntryEdit_auth (s : WSState) (c entryId operation dataStr uid : String)
    (cl : Client) (hcl : lookupA s.clients c = some cl) (hu : cl.userId = some uid)
    (hrole : roleGE cl.role 2 = true) :
    handleEntryEdit s c entryId operation dataStr =
      ((broadcastToSubscribers (entryEditState s entryId operation dataStr uid)
          ("entries:" ++ entryId)
          ⟨"entry_updated", Payload.entryUpdated entryId operation dataStr uid⟩ [c]).1,
        (broadcastToSubscribers (entryEditState s entryId operation dataStr uid)
          ("entries:" ++ entryId)
          ⟨"entry_updated", Payload.entryUpdated entryId operation dataStr uid⟩ [c]).2.1) := by
  unfold handleEntryEdit entryEditState editEventOf
  rw [hcl]
  show (match cl.userId with
    | none => sendError s c ("UNAUTHORIZED") ("Authentication required")
    | some uid =>
      if roleGE cl.role 2 = true then
        match (appendToStream s.eventStore ("entry-" ++ entryId)
            [{ eventType := "EntryEditOperation", aggregateId := entryId,
               aggregateType := "Entry",
               eventData := EventData.editOp operation dataStr uid }] (-1)).2 with
        | Except.error _ => sendError s c ("EDIT_FAILED") ("Failed to process entry edit")
        | Except.ok _ =>
          ((broadcastToSubscribers
              { s with eventStore := (appendToStream s.eventStore ("entry-" ++ entryId)
                  [{ eventType := "EntryEditOperation", aggregateId := entryId,
                     aggregateType := "Entry",
                     eventData := EventData.editOp operation dataStr uid }] (-1)).1 }
              ("entries:" ++ entryId)
              ⟨"entry_updated", Payload.entryUpdated entryId operation dataStr uid⟩ [c]).1,
            (broadcastToSubscribers
              { s with eventStore := (appendToStream s.eventStore ("entry-" ++ entryId)
                  [{ eventType := "EntryEditOperation", aggregateId := entryId,
                     aggregateType := "Entry",
                     eventData := EventData.editOp operation dataStr uid }] (-1)).1 }
              ("entries:" ++ entryId)
              ⟨"entry_updated", Payload.entryUpdated entryId operation dataStr uid⟩ [c]).2.1)
      else sendError s c ("INSUFFICIENT_PERMISSIONS") ("Editor role required")) = _
  rw [hu]
  show (if roleGE cl.role 2 = true then _ else _) = _
  rw [if_pos hrole]
  rfl

theorem broadcastToSubscribers_skip (s0 s1 : WSState) (channel : String) (f : Frame)
    (ex : List String) (cid : String)
    (hmq : s1.messageQueue = s0.messageQueue)
    (hcond : ∀ p ∈ s1.clients, p.1 = cid →
      (ex.contains cid = true ∨ p.2.subscriptions.contains channel = false)) :
    framesTo s0 (broadcastToSubscribers s1 channel f ex).1
      (broadcastToSubscribers s1 channel f ex).2.1 cid = [] := by
  obtain ⟨h1, h2⟩ := bSubs_skip channel f ex cid s1.clients s1 hcond
  unfold broadcastToSubscribers framesTo queueDelta
  rw [h1, h2, queueOf_eq_of_mq s0 s1 hmq cid]
  simp [List.drop_length]

theorem broadcastToSubscribers_hit (s0 s1 : WSState) (channel : String) (f : Frame)
    (ex : List String) (cid : String) (cl : Client)
    (hmq : s1.messageQueue = s0.messageQueue)
    (hnd : (s1.clients.map (fun p => p.1)).Nodup)
    (hm : (cid, cl) ∈ s1.clients)
    (hex : ex.contains cid = false)
    (hsub : cl.subscriptions.contains channel = true)
    (hok : ∀ cl2, lookupA s1.clients cid = some cl2 → cl2.sendOk = true) :
    framesTo s0 (broadcastToSubscribers s1 channel f ex).1
      (broadcastToSubscribers s1 channel f ex).2.1 cid = [f] := by
  have h := bSubs_hit channel f ex cid cl s1.clients s1 hnd hm hex hsub hok
  unfold broadcastToSubscribers
  unfold framesTo queueDelta at h ⊢
  rw [queueOf_eq_of_mq s0 s1 hmq cid] at h
  exact h

theorem contains_singleton_false (x y : String) (h : y ≠ x) : [x].contains y = false := by
  simp [h]

/-- C3 (amended): in the scenario where clients A and B have both joined
room `entry-{id}` and A (authenticated, role ≥ editor) sends an
`entry_edit`, the edit event is appended to stream `entry-{id}` at the
next sequence number with the no-check sentinel expected version, and the
`entry_updated` frame is fanned out to exactly the connections subscribed
to topic channel `entries:{id}`, excluding the sender — so B, who merely
joined the room and is not subscribed to that channel, receives nothing
(neither on the wire nor queued), A receives nothing per the
exclude-sender rule, and every other connection subscribed to the channel
receives the frame exactly once. -/
theorem entry_edit_append_and_subscriber_fanout :
    ∀ (s : WSState) (a b entryId operation dataStr uid : String) (clA clB : Client),
      lookupA s.clients a = some clA → clA.userId = some uid →
      roleGE clA.role 2 = true →
      lookupA s.clients b = some clB → b ≠ a →
      b ∈ (lookupA s.rooms ("entry-" ++ entryId)).getD [] →
      clB.subscriptions.contains ("entries:" ++ entryId) = false →
      (s.clients.map (fun p => p.1)).Nodup →
      (∀ p ∈ s.clients, p.2.sendOk = true) →
      streamOf (handleEntryEdit s a entryId operation dataStr).1.eventStore
          ("entry-" ++ entryId) =
        streamOf s.eventStore ("entry-" ++ entryId) ++
          [{ streamId := "entry-" ++ entryId, eventType := "EntryEditOperation",
             aggregateId := entryId, aggregateType := "Entry",
             eventData := EventData.editOp operation dataStr uid,
             sequenceNumber := headVersion s.eventStore ("entry-" ++ entryId) + 1 }] ∧
      framesTo s (handleEntryEdit s a entryId operation dataStr).1
          (handleEntryEdit s a entryId operation dataStr).2 b = [] ∧
      framesTo s (handleEntryEdit s a entryId operation dataStr).1
          (handleEntryEdit s a entryId operation dataStr).2 a = [] ∧
      (∀ c2 cl2, (c2, cl2) ∈ s.clients → c2 ≠ a →
        cl2.subscriptions.contains ("entries:" ++ entryId) = true →
        framesTo s (handleEntryEdit s a entryId operation dataStr).1
            (handleEntryEdit s a entryId operation dataStr).2 c2 =
          [⟨"entry_updated", Payload.entryUpdated entryId operation dataStr uid⟩]) := by
  intro s a b entryId operation dataStr uid clA clB hclA huA hrole hclB hba hroom hsubB hnd hsok
  rw [handleEntryEdit_auth s a entryId operation dataStr uid clA hclA huA hrole]
  refine ⟨?_, ?_, ?_, ?_⟩
  · have hes : (broadcastToSubscribers (entryEditState s entryId operation dataStr uid)
        ("entries:" ++ entryId)
        ⟨"entry_updated", Payload.entryUpdated entryId operation dataStr uid⟩ [a]).1.eventStore =
        (entryEditState s entryId operation dataStr uid).eventStore :=
      bSubs_eventStore _ _ _ _ _
    rw [hes]
    show streamOf (appendToStream s.eventStore ("entry-" ++ entryId)
        [editEventOf entryId operation dataStr uid] (-1)).1 ("entry-" ++ entryId) = _
    rw [appendToStream_fst_ok _ _ _ _ (fun h => h.1 rfl), streamOf_setA, if_pos rfl]
    rfl
  · apply broadcastToSubscribers_skip s (entryEditState s entryId operation dataStr uid)
      _ _ _ b rfl
    intro p hp hpe
    right
    have hpmem : (b, p.2) ∈ s.clients := by
      rw [show ((b, p.2) : String × Client) = p from by rw [← hpe]]
      exact hp
    have hlp : lookupA s.clients b = some p.2 := lookupA_of_mem_nodup s.clients b p.2 hnd hpmem
    rw [hclB] at hlp
    simp only [Option.some.injEq] at hlp
    rw [← hlp]
    exact hsubB
  · apply broadcastToSubscribers_skip s (entryEditState s entryId operation dataStr uid)
      _ _ _ a rfl
    intro p _ _
    left
    simp
  · intro c2 cl2 hm2 hne2 hsub2
    apply broadcastToSubscribers_hit s (entryEditState s entryId operation dataStr uid)
      _ _ _ c2 cl2 rfl hnd hm2 (contains_singleton_false a c2 hne2) hsub2
    intro cl3 hcl3
    exact hsok (c2, cl3) (mem_of_lookupA _ _ _ hcl3)

def exClA : Client :=
  { clientId := "A", wsOpen := true, sendOk := true, userId := some "uA",
    email := some "a@x", role := some 2, subscriptions := [], lastHeartbeat := 0 }

def exClB : Client :=
  { clientId := "B", wsOpen := true, sendOk := true, userId := some "uB",
    email := some "b@x", role := some 1, subscriptions := [], lastHeartbeat := 0 }

def exC3State : WSState :=
  { clients := [(("A"), exClA), (("B"), exClB)],
    rooms := [(("entry-42"), [("A"), ("B")])],
    userSessions := [(("uA"), [("A")]), (("uB"), [("B")])],
    messageQueue := [],
    eventStore := [] }

/-- C3 counterexample: clients A and B have both joined room `entry-42`,
A is authenticated with the editor role and sends an entry_edit for entry
42; the edit event is appended to stream `entry-42`, but no frame at all
is emitted — in particular B, a member of room `entry-42`, does not
receive an `entry_updated` frame (the broadcast targets subscribers of
channel `entries:42`, not room members), refuting the claim as stated. -/
theorem entry_edit_room_member_not_notified_cex :
    (streamOf (handleEntryEdit exC3State ("A") ("42") ("insert") ("x")).1.eventStore
        ("entry-42")).length = 1 ∧
    (handleEntryEdit exC3State ("A") ("42") ("insert") ("x")).2 = [] ∧
    queueOf (handleEntryEdit exC3State ("A") ("42") ("insert") ("x")).1 ("B") = [] := by
  refine ⟨rfl, rfl, rfl⟩

/-- Witness for the amended C3 at the concrete scenario state: the event
lands at the next sequence number of stream `entry-42`, and neither the
room member B nor the sender A receives anything. -/
theorem entry_edit_append_and_subscriber_fanout_witness :
    streamOf (handleEntryEdit exC3State ("A") ("42") ("insert") ("x")).1.eventStore
        ("entry-" ++ "42") =
      streamOf exC3State.eventStore ("entry-" ++ "42") ++
        [{ streamId := "entry-" ++ "42", eventType := "EntryEditOperation",
           aggregateId := "42", aggregateType := "Entry",
           eventData := EventData.editOp ("insert") ("x") ("uA"),
           sequenceNumber := headVersion exC3State.eventStore ("entry-" ++ "42") + 1 }] ∧
    framesTo exC3State (handleEntryEdit exC3State ("A") ("42") ("insert") ("x")).1
        (handleEntryEdit exC3State ("A") ("42") ("insert") ("x")).2 ("B") = [] ∧
    framesTo exC3State (handleEntryEdit exC3State ("A") ("42") ("insert") ("x")).1
        (handleEntryEdit exC3State ("A") ("42") ("insert") ("x")).2 ("A") = [] := by
  have h := entry_edit_append_and_subscriber_fanout exC3State ("A") ("B") ("42")
    ("insert") ("x") ("uA") exClA exClB rfl rfl (by decide) rfl (by decide) (by decide)
    rfl (by decide) (by decide)
  exact ⟨h.1, h.2.1, h.2.2.1⟩

/-! ## NotificationService embedding

Embeds `notificationService.js`: recipients, delivery tasks, the rate
limiter, per-user channel preferences, `sendNotification` and the delivery
processor's per-task handling. Template rendering produces only message
content and is immaterial to the claims; the channel `send` outcome is a
boolean parameter. -/

structure Recipient where
  userId : Option String
  email : Option String
deriving DecidableEq

inductive TaskStatus where
  | pending
  | processing
  | delivered
  | failed
deriving DecidableEq

structure Task where
  notificationId : String
  recipient : Recipient
  channel : String
  template : String
  priority : String
  scheduleAt : Option Nat
  deliveryGuarantee : Bool
  attempts : Nat
  maxAttempts : Nat
  createdAt : Nat
  status : TaskStatus
deriving DecidableEq

structure NotifState where
  deliveryQueue : List (String × List Task)
  userPreferences : List (String × List String)
  rateLimiter : List (String × List Nat)
  eventStore : ESState
deriving DecidableEq

def windowMs : Nat := 60 * 60 * 1000

def maxPerWindow : Nat := 10

/-- `${recipient.userId || recipient.email}-${template}` (both absent
stringifies as undefined). -/
def rateKey (r : Recipient) (template : String) : String :=
  (r.userId.getD (r.email.getD ("undefined"))) ++ "-" ++ template

/-- Embeds `NotificationService.checkRateLimit(recipient, template)`:
drops timestamps older than one hour, refuses once ten remain in the
window, otherwise records the new timestamp and allows. -/
def checkRateLimit (rl : List (String × List Nat)) (r : Recipient) (template : String)
    (now : Nat) : Bool × List (String × List Nat) :=
  let key := rateKey r template
  let timestamps := (lookupA rl key).getD []
  let valid := timestamps.filter (fun ts => now - ts < windowMs)
  if maxPerWindow ≤ valid.length then (false, setA rl key valid)
  else (true, setA rl key (valid ++ [now]))

/-- The rate-limit loop at the top of `sendNotification`: it calls
`checkRateLimit` for each recipient but only logs when the check fails —
the `continue` is the last statement of the loop body, so no recipient is
excluded from task creation. Only the rate limiter's timestamp state is
threaded through. -/
def rateLimitPass (template : String) (now : Nat) :
    List (String × List Nat) → List Recipient → List (String × List Nat)
  | rl, [] => rl
  | rl, r :: rest => rateLimitPass template now (checkRateLimit rl r template now).2 rest

def defaultAnonChannels : List String := [("websocket")]

def defaultChannels : List String := [("websocket"), ("email")]

/-- Embeds `NotificationService.getUserPreferences(userId)` (restricted
to the channel list, the only field `sendNotification` reads): no user id
gets the websocket-only default; an unknown user id gets the default
preferences stored into the map. -/
def getUserPreferences (prefs : List (String × List String)) (userId : Option String) :
    List String × List (String × List String) :=
  match userId with
  | none => (defaultAnonChannels, prefs)
  | some uid =>
    match lookupA prefs uid with
    | some p => (p, prefs)
    | none => (defaultChannels, setA prefs uid defaultChannels)

/-- One Delivery Task as created by `sendNotification`. -/
def mkTask (notificationId : String) (r : Recipient) (channel template priority : String)
    (scheduleAt : Option Nat) (dg : Bool) (now : Nat) : Task :=
  { notificationId := notificationId, recipient := r, channel := channel,
    template := template, priority := priority, scheduleAt := scheduleAt,
    deliveryGuarantee := dg, attempts := 0,
    maxAttempts := if dg then 5 else 1, createdAt := now, status := TaskStatus.pending }

/-- The per-recipient task-creation loop of `sendNotification`: one task
per recipient × preference-enabled channel; the preference map is
threaded because a miss stores the defaults. -/
def tasksFor (notificationId template priority : String) (channels : List String)
    (scheduleAt : Option Nat) (dg : Bool) (now : Nat) :
    List (String × List String) → List Recipient →
      List Task × List (String × List String)
  | prefs, [] => ([], prefs)
  | prefs, r :: rest =>
    let gp := getUserPreferences prefs r.userId
    let enabled := channels.filter (fun ch => gp.1.contains ch)
    let mine := enabled.map
      (fun ch => mkTask notificationId r ch template priority scheduleAt dg now)
    let acc := tasksFor notificationId template priority channels scheduleAt dg now gp.2 rest
    (mine ++ acc.1, acc.2)

def notifQueuedEvent (notificationId : String) : InputEvent :=
  { eventType := "NotificationNotification_queued", aggregateId := notificationId,
    aggregateType := "Notification", eventData := EventData.notif notificationId }

/-- Embeds `NotificationService.sendNotification(notification)`: rejects
an empty recipient list, runs the (ineffective) rate-limit loop, creates
one task per recipient × enabled channel, and when any tasks exist stores
them in the delivery queue under a fresh notification id and records a
`notification_queued` event; returns the notification id, or null when
every recipient had every requested channel disabled. -/
def sendNotification (ns : NotifState) (recipients : List Recipient)
    (template : String) (channels : List String) (priority : String)
    (scheduleAt : Option Nat) (deliveryGuarantee : Bool)
    (notificationId : String) (now : Nat) :
    Except String (NotifState × Option String) :=
  if recipients.isEmpty then Except.error ("Recipients are required")
  else
    let rl := rateLimitPass template now ns.rateLimiter recipients
    let tf := tasksFor notificationId template priority channels scheduleAt
      deliveryGuarantee now ns.userPreferences recipients
    if tf.1.isEmpty then
      Except.ok ({ ns with rateLimiter := rl, userPreferences := tf.2 }, none)
    else
      Except.ok
        ({ deliveryQueue := setA ns.deliveryQueue notificationId tf.1,
           userPreferences := tf.2,
           rateLimiter := rl,
           eventStore := (appendToStream ns.eventStore
             ("notifications-" ++ notificationId) [notifQueuedEvent notificationId] (-1)).1 },
          some notificationId)

/-- Embeds `NotificationService.processDeliveryTask(task)` with the
channel send outcome as a parameter: marks processing, counts the
attempt, and on failure either reschedules with exponential backoff
(`2^attempts` seconds) returning to pending, or — once attempts are
exhausted — fails permanently. -/
def processDeliveryTask (t : Task) (sendSuccess : Bool) (now : Nat) : Task :=
  let t1 := { t with status := TaskStatus.processing, attempts := t.attempts + 1 }
  if sendSuccess then { t1 with status := TaskStatus.delivered }
  else if t1.attempts < t1.maxAttempts then
    { t1 with status := TaskStatus.pending,
              scheduleAt := some (now + 2 ^ t1.attempts * 1000) }
  else { t1 with status := TaskStatus.failed }

/-- The delivery processor's selection predicate:
`task.status === 'pending' && (!task.scheduleAt || now >= task.scheduleAt)`. -/
def readyAt (t : Task) (now : Nat) : Bool :=
  decide (t.status = TaskStatus.pending) &&
    (match t.scheduleAt with
     | none => true
     | some ts => decide (ts ≤ now))

/-- Repeatedly process a task through a channel that always fails, at the
given sequence of processing times. -/
def runFailures : Task → List Nat → Task
  | t, [] => t
  | t, now :: rest => runFailures (processDeliveryTask t false now) rest

/-- The processing times are admissible: each processing happens only
when the periodic processor would select the task (pending and past its
scheduled time). -/
def validRun : Task → List Nat → Bool
  | _, [] => true
  | t, now :: rest => readyAt t now && validRun (processDeliveryTask t false now) rest

/-! ## Claim C4: the rate limiter is consulted but its verdict is ignored -/

def exRecipient : Recipient := { userId := some "u1", email := some "u1@x" }

/-- Ten deliveries recorded for `(u1, welcome)` at time 100, all inside
the rolling hour at time 3600000. -/
def exRateLimiter : List (String × List Nat) :=
  [(("u1-welcome"), [100, 100, 100, 100, 100, 100, 100, 100, 100, 100])]

def exNotifState : NotifState :=
  { deliveryQueue := [], userPreferences := [], rateLimiter := exRateLimiter,
    eventStore := [] }

def exNow : Nat := 3600000

/-- C4: with ten deliveries recorded for `(u1, welcome)` within the
rolling hour, `checkRateLimit` refuses the next request — but
`sendNotification`'s rate-limit loop only logs the refusal (its
`continue` is the last statement of the loop body), so a pending Delivery
Task for the rate-limited recipient is still created and queued. The
claim that the request is silently dropped with no task created matches
the code's evident intent but not its behaviour. -/
theorem rate_limited_recipient_still_queued :
    (checkRateLimit exRateLimiter exRecipient ("welcome") exNow).1 = false ∧
    sendNotification exNotifState [exRecipient] ("welcome") [("websocket")] ("normal")
        none false ("n1") exNow =
      Except.ok
        ({ deliveryQueue := [(("n1"),
             [mkTask ("n1") exRecipient ("websocket") ("welcome") ("normal") none false exNow])],
           userPreferences := [(("u1"), defaultChannels)],
           rateLimiter := exRateLimiter,
           eventStore := [(("notifications-n1"),
             [{ streamId := "notifications-n1",
                eventType := "NotificationNotification_queued",
                aggregateId := "n1", aggregateType := "Notification",
                eventData := EventData.notif ("n1"), sequenceNumber := 1 }])] },
          some ("n1")) := by
  constructor <;> rfl

/-! ## Claim C8: delivery tasks and the retry policy -/

/-- The channel preferences `sendNotification` effectively uses for a
recipient: the stored ones, or the defaults for a missing or absent user
id. -/
def prefsView (prefs : List (String × List String)) (userId : Option String) : List String :=
  match userId with
  | none => defaultAnonChannels
  | some uid => (lookupA prefs uid).getD defaultChannels

theorem getUserPreferences_fst (prefs : List (String × List String)) (u : Option String) :
    (getUserPreferences prefs u).1 = prefsView prefs u := by
  cases u with
  | none => rfl
  | some uid =>
    show (match lookupA prefs uid with
      | some p => (p, prefs)
      | none => (defaultChannels, setA prefs uid defaultChannels)).1 =
      (lookupA prefs uid).getD defaultChannels
    cases lookupA prefs uid with
    | some p => rfl
    | none => rfl

theorem getUserPreferences_view2 (prefs : List (String × List String)) (u u2 : Option String) :
    prefsView (getUserPreferences prefs u).2 u2 = prefsView prefs u2 := by
  cases u with
  | none => rfl
  | some uid =>
    show prefsView (match lookupA prefs uid with
      | some p => (p, prefs)
      | none => (defaultChannels, setA prefs uid defaultChannels)).2 u2 =
      prefsView prefs u2
    cases h : lookupA prefs uid with
    | some p => rfl
    | none =>
      cases u2 with
      | none => rfl
      | some uid2 =>
        show (lookupA (setA prefs uid defaultChannels) uid2).getD defaultChannels =
          (lookupA prefs uid2).getD defaultChannels
        rw [lookupA_setA]
        by_cases he : uid = uid2
        · rw [if_pos he]
          subst he
          rw [h]
          rfl
        · rw [if_neg he]

theorem tasksFor_spec (notificationId template priority : String) (channels : List String)
    (scheduleAt : Option Nat) (dg : Bool) (now : Nat) :
    ∀ (recipients : List Recipient) (prefs : List (String × List String)),
      (tasksFor notificationId template priority channels scheduleAt dg now
          prefs recipients).1 =
        recipients.bind (fun r =>
          (channels.filter (fun ch => (prefsView prefs r.userId).contains ch)).map
            (fun ch => mkTask notificationId r ch template priority scheduleAt dg now)) := by
  intro recipients
  induction recipients with
  | nil => intro prefs; rfl
  | cons r rest ih =>
    intro prefs
    show (channels.filter
        (fun ch => ((getUserPreferences prefs r.userId).1).contains ch)).map
        (fun ch => mkTask notificationId r ch template priority scheduleAt dg now) ++
      (tasksFor notificationId template priority channels scheduleAt dg now
        (getUserPreferences prefs r.userId).2 rest).1 = _
    rw [ih ((getUserPreferences prefs r.userId).2), getUserPreferences_fst]
    have hfn : (fun r2 : Recipient =>
        (channels.filter (fun ch =>
          (prefsView (getUserPreferences prefs r.userId).2 r2.userId).contains ch)).map
          (fun ch => mkTask notificationId r2 ch template priority scheduleAt dg now)) =
        (fun r2 : Recipient =>
          (channels.filter (fun ch => (prefsView prefs r2.userId).contains ch)).map
            (fun ch => mkTask notificationId r2 ch template priority scheduleAt dg now)) := by
      funext r2
      rw [getUserPreferences_view2]
    rw [hfn]
    rfl

/-- The task as rescheduled by `processDeliveryTask` after a failed send
with attempts remaining: attempts bumped, status back to pending, next
processing scheduled `2 ^ attempts * 1000` after `now` (the exponential
backoff of the failed-attempt branch). -/
def rescheduled (t : Task) (now : Nat) : Task :=
  { t with status := TaskStatus.pending, attempts := t.attempts + 1,
           scheduleAt := some (now + 2 ^ (t.attempts + 1) * 1000) }

/-- The task as finalised by `processDeliveryTask` after a failed send
that exhausts `maxAttempts`: attempts bumped, status permanently failed. -/
def exhausted (t : Task) : Task :=
  { t with status := TaskStatus.failed, attempts := t.attempts + 1 }

theorem processDeliveryTask_retry (t : Task) (now : Nat)
    (hlt : t.attempts + 1 < t.maxAttempts) :
    processDeliveryTask t false now = rescheduled t now := by
  show (if t.attempts + 1 < t.maxAttempts then rescheduled t now else exhausted t) =
    rescheduled t now
  rw [if_pos hlt]

theorem processDeliveryTask_exhaust (t : Task) (now : Nat)
    (hge : ¬ t.attempts + 1 < t.maxAttempts) :
    processDeliveryTask t false now = exhausted t := by
  show (if t.attempts + 1 < t.maxAttempts then rescheduled t now else exhausted t) =
    exhausted t
  rw [if_neg hge]

theorem runFailures_spec :
    ∀ (times : List Nat) (t : Task),
      t.maxAttempts = 5 → t.status = TaskStatus.pending → t.attempts < 5 →
      validRun t times = true →
      t.attempts + times.length ≤ 5 ∧
      (runFailures t times).attempts = t.attempts + times.length ∧
      (runFailures t times).status =
        (if t.attempts + times.length = 5 then TaskStatus.failed else TaskStatus.pending) ∧
      (∀ i, i + 1 < times.length →
        times.getD i 0 + 2 ^ (t.attempts + i + 1) * 1000 ≤ times.getD (i + 1) 0) := by
  intro times
  induction times with
  | nil =>
    intro t h5 hp hlt _
    refine ⟨by simpa using Nat.le_of_lt hlt, by simp [runFailures], ?_, ?_⟩
    · rw [if_neg (by simp; omega)]
      exact hp
    · intro i hi
      simp at hi
  | cons now rest ih =>
    intro t h5 hp hlt hv
    unfold validRun at hv
    simp only [Bool.and_eq_true] at hv
    obtain ⟨hready, hv2⟩ := hv
    by_cases hc : t.attempts + 1 < 5
    · have hclt : t.attempts + 1 < t.maxAttempts := by rw [h5]; exact hc
      have hstep := processDeliveryTask_retry t now hclt
      rw [hstep] at hv2
      have ih2 := ih (rescheduled t now) h5 rfl hc hv2
      have hb1 : t.attempts + 1 + rest.length ≤ 5 := ih2.1
      have hb2 : (runFailures (rescheduled t now) rest).attempts =
          t.attempts + 1 + rest.length := ih2.2.1
      have hb3 : (runFailures (rescheduled t now) rest).status =
          (if t.attempts + 1 + rest.length = 5 then TaskStatus.failed
           else TaskStatus.pending) := ih2.2.2.1
      have hb4 : ∀ i, i + 1 < rest.length →
          rest.getD i 0 + 2 ^ (t.attempts + 1 + i + 1) * 1000 ≤ rest.getD (i + 1) 0 :=
        ih2.2.2.2
      have harith : t.attempts + 1 + rest.length = t.attempts + (rest.length + 1) := by omega
      have hrun : runFailures t (now :: rest) = runFailures (rescheduled t now) rest := by
        show runFailures (processDeliveryTask t false now) rest = _
        rw [hstep]
      refine ⟨?_, ?_, ?_, ?_⟩
      · simp only [List.length_cons]
        omega
      · rw [hrun, hb2]
        simp only [List.length_cons]
        omega
      · rw [hrun, hb3]
        simp only [List.length_cons, harith]
      · intro i hi
        cases i with
        | zero =>
          cases rest with
          | nil => simp at hi
          | cons r0 rest2 =>
            unfold validRun at hv2
            simp only [Bool.and_eq_true] at hv2
            have hdec : decide (now + 2 ^ (t.attempts + 1) * 1000 ≤ r0) = true := hv2.1
            have hle : now + 2 ^ (t.attempts + 1) * 1000 ≤ r0 := of_decide_eq_true hdec
            show (now :: r0 :: rest2).getD 0 0 + 2 ^ (t.attempts + 0 + 1) * 1000 ≤
              (now :: r0 :: rest2).getD 1 0
            simpa using hle
        | succ j =>
          have hj := hb4 j (by simp only [List.length_cons] at hi; omega)
          have hexp : t.attempts + 1 + j + 1 = t.attempts + (j + 1) + 1 := by omega
          rw [hexp] at hj
          show (now :: rest).getD (j + 1) 0 + 2 ^ (t.attempts + (j + 1) + 1) * 1000 ≤
            (now :: rest).getD (j + 1 + 1) 0
          simpa using hj
    · have hcge : ¬ t.attempts + 1 < t.maxAttempts := by rw [h5]; exact hc
      have hstep := processDeliveryTask_exhaust t now hcge
      rw [hstep] at hv2
      have hrest : rest = [] := by
        cases rest with
        | nil => rfl
        | cons r0 rest2 =>
          unfold validRun readyAt exhausted at hv2
          simp at hv2
      subst hrest
      have hrun : runFailures t [now] = exhausted t := by
        show runFailures (processDeliveryTask t false now) [] = _
        rw [hstep]
        rfl
      refine ⟨?_, ?_, ?_, ?_⟩
      · simp only [List.length_cons, List.length_nil]
        omega
      · rw [hrun]
        show t.attempts + 1 = t.attempts + ([now]).length
        simp
      · rw [hrun, if_pos (by simp only [List.length_cons, List.length_nil]; omega)]
        rfl
      · intro i hi
        simp only [List.length_cons, List.length_nil] at hi
        omega

theorem sendNotification_ok (ns : NotifState) (recipients : List Recipient)
    (template : String) (channels : List String) (priority : String)
    (scheduleAt : Option Nat) (dg : Bool) (notificationId : String) (now : Nat)
    (hne : recipients.isEmpty = false)
    (htasks : (tasksFor notificationId template priority channels scheduleAt dg now
        ns.userPreferences recipients).1.isEmpty = false) :
    sendNotification ns recipients template channels priority scheduleAt dg
        notificationId now =
      Except.ok
        ({ deliveryQueue := setA ns.deliveryQueue notificationId
             (tasksFor notificationId template priority channels scheduleAt dg now
               ns.userPreferences recipients).1,
           userPreferences := (tasksFor notificationId template priority channels
             scheduleAt dg now ns.userPreferences recipients).2,
           rateLimiter := rateLimitPass template now ns.rateLimiter recipients,
           eventStore := (appendToStream ns.eventStore
             ("notifications-" ++ notificationId) [notifQueuedEvent notificationId]
             (-1)).1 },
         some notificationId) := by
  unfold sendNotification
  simp only [hne, htasks, Bool.false_eq_true, if_false]

def c8Recipient : Recipient := { userId := some ("w1"), email := none }

def c8State : NotifState :=
  { deliveryQueue := [], userPreferences := [(("w1"), [("websocket")])],
    rateLimiter := [], eventStore := [] }

/-- Processing times of five consecutive failing attempts, each exactly at
the rescheduled moment: the backoff after attempt k is `2 ^ k * 1000`. -/
def c8Times : List Nat := [0, 2000, 6000, 14000, 30000]

/-- C8: every task created by `sendNotification` is one per
recipient × preference-enabled channel (the whole batch is queued under the
notification id), starts pending with `attempts = 0` and
`maxAttempts = 5` when `deliveryGuarantee` and `1` otherwise; and under
`deliveryGuarantee`, a run of always-failing sends performs at most five
attempts, counts them exactly, ends permanently `failed` precisely when the
five attempts are exhausted (otherwise back to pending), and the delay
before attempt `k + 1` is at least `2 ^ k * 1000` time-units. -/
theorem notification_tasks_and_retry_policy
    (ns : NotifState) (recipients : List Recipient) (template : String)
    (channels : List String) (priority : String) (scheduleAt : Option Nat)
    (dg : Bool) (notificationId : String) (now : Nat) (t : Task) (times : List Nat)
    (hne : recipients ≠ [])
    (ht : t ∈ (tasksFor notificationId template priority channels scheduleAt dg now
        ns.userPreferences recipients).1)
    (hvr : validRun t times = true) :
    (tasksFor notificationId template priority channels scheduleAt dg now
        ns.userPreferences recipients).1 =
      recipients.bind (fun r =>
        (channels.filter (fun ch =>
          (prefsView ns.userPreferences r.userId).contains ch)).map
          (fun ch => mkTask notificationId r ch template priority scheduleAt dg now)) ∧
    t.maxAttempts = (if dg then 5 else 1) ∧
    t.attempts = 0 ∧
    t.status = TaskStatus.pending ∧
    (∃ ns2, sendNotification ns recipients template channels priority scheduleAt dg
          notificationId now = Except.ok (ns2, some notificationId) ∧
        lookupA ns2.deliveryQueue notificationId =
          some (tasksFor notificationId template priority channels scheduleAt dg now
            ns.userPreferences recipients).1) ∧
    (dg = true →
      times.length ≤ 5 ∧
      (runFailures t times).attempts = times.length ∧
      ((runFailures t times).status =
        if times.length = 5 then TaskStatus.failed else TaskStatus.pending) ∧
      (∀ i, i + 1 < times.length →
        times.getD i 0 + 2 ^ (i + 1) * 1000 ≤ times.getD (i + 1) 0)) := by
  have hspec := tasksFor_spec notificationId template priority channels scheduleAt dg now
    recipients ns.userPreferences
  have htm : t ∈ recipients.bind (fun r =>
      (channels.filter (fun ch =>
        (prefsView ns.userPreferences r.userId).contains ch)).map
        (fun ch => mkTask notificationId r ch template priority scheduleAt dg now)) := by
    rw [hspec] at ht
    exact ht
  obtain ⟨r, hrmem, htr⟩ := List.mem_bind.mp htm
  obtain ⟨ch, hchmem, hteq⟩ := List.mem_map.mp htr
  have hqne : (tasksFor notificationId template priority channels scheduleAt dg now
      ns.userPreferences recipients).1 ≠ [] := List.ne_nil_of_mem ht
  subst hteq
  refine ⟨hspec, rfl, rfl, rfl, ?_, ?_⟩
  · refine ⟨_, sendNotification_ok ns recipients template channels priority scheduleAt dg
      notificationId now ?_ ?_, ?_⟩
    · cases recipients with
      | nil => exact absurd rfl hne
      | cons a l => rfl
    · cases hcc : (tasksFor notificationId template priority channels scheduleAt dg now
          ns.userPreferences recipients).1 with
      | nil => exact absurd hcc hqne
      | cons a l => rfl
    · show lookupA (setA ns.deliveryQueue notificationId _) notificationId = _
      rw [lookupA_setA, if_pos rfl]
  · intro hdg
    subst hdg
    have hrs := runFailures_spec times
      (mkTask notificationId r ch template priority scheduleAt true now)
      rfl rfl (Nat.zero_lt_succ 4) hvr
    have hr1 : 0 + times.length ≤ 5 := hrs.1
    have hr2 : (runFailures
        (mkTask notificationId r ch template priority scheduleAt true now) times).attempts =
        0 + times.length := hrs.2.1
    have hr3 : (runFailures
        (mkTask notificationId r ch template priority scheduleAt true now) times).status =
        (if 0 + times.length = 5 then TaskStatus.failed else TaskStatus.pending) :=
      hrs.2.2.1
    have hr4 : ∀ i, i + 1 < times.length →
        times.getD i 0 + 2 ^ (0 + i + 1) * 1000 ≤ times.getD (i + 1) 0 := hrs.2.2.2
    refine ⟨by simpa using hr1, by simpa using hr2, by simpa using hr3, ?_⟩
    intro i hi
    have := hr4 i hi
    simpa using this

/-- Witness for C8 at a concrete input: one recipient with the websocket
channel enabled, delivery guarantee on, five failing attempts at exactly
the rescheduled times: the task ends failed with five counted attempts. -/
theorem notification_tasks_and_retry_policy_witness :
    validRun (mkTask ("n8") c8Recipient ("websocket") ("welcome") ("normal") none true 0)
        c8Times = true ∧
    (runFailures (mkTask ("n8") c8Recipient ("websocket") ("welcome") ("normal") none true 0)
        c8Times).status = TaskStatus.failed ∧
    (runFailures (mkTask ("n8") c8Recipient ("websocket") ("welcome") ("normal") none true 0)
        c8Times).attempts = 5 := by
  have h := notification_tasks_and_retry_policy c8State [c8Recipient] ("welcome")
    [("websocket")] ("normal") none true ("n8") 0
    (mkTask ("n8") c8Recipient ("websocket") ("welcome") ("normal") none true 0)
    c8Times (by decide) (by decide) (by decide)
  have h6 := h.2.2.2.2.2 rfl
  refine ⟨by decide, ?_, ?_⟩
  · rw [h6.2.2.1]
    decide
  · rw [h6.2.1]
    decide

end Nyelvszo
